import Mathlib

/-!
# Prisoner's-dilemma bot: the game-session manager

A shallow embedding of `game/manager.go`, `models/session.go` and
`utils/helpers.go` (function `GenerateID`), followed by theorems about it.

Conventions of the embedding.

* A `*models.Session` is an index into `Manager.heap`, the list of every
  `Session` object allocated so far; the zero pointer is any index that is out
  of range.  The two `*models.Player` of a session are allocated together with
  it and never shared, so they are stored inside the `Session` value.
* Go maps are functions into `Option`.
* `sync.Mutex` is a `Bool` (held or not) and `sync.RWMutex` a writer flag plus
  a reader count.  A call that reaches `Lock` on a lock that is held stops
  there for ever: its outcome is `Outcome.blocked`, with the state at that
  point.  Deferred unlocks are written out before every `return`.
* `time.Now()` is a natural number handed to the call (nanoseconds), one
  argument per read of the clock.
* `int64` identifiers and the `int` counters are `Int`, and `Score += delta`
  and `CurrentRound++` are computed without wrap-around.  Go's `int` wraps at
  `2^63`: the embedding agrees with the code on every session whose counters
  fit (`Session.ScoresFit`, `Session.RoundFits`).  A score and the round index
  grow by at most 5 and 1 per entry appended to `History`, so the sessions a
  manager builds from a fresh state fit for every history a machine can hold;
  a theorem about an arbitrary session object assumes that it fits.
-/

namespace PrisonersDilemma

/-! ## models/session.go -/

/-- The `GameState` constants, in `iota` order. -/
inductive GameState where
  | StateWaitingForPlayerB
  | StateInProgress
  | StateFinished
  | StateWaitingRematch
  deriving DecidableEq, Repr

/-- `type PlayerChoice string`. -/
abbrev PlayerChoice := String

def ChoiceNone : PlayerChoice := ""
def ChoiceNegotiate : PlayerChoice := "договориться"
def ChoiceDefect : PlayerChoice := "предать"

structure RoundResult where
  Round : Int
  PlayerAChoice : PlayerChoice
  PlayerBChoice : PlayerChoice
  PlayerAScore : Int
  PlayerBScore : Int
  Timestamp : Nat
  deriving DecidableEq, Repr

/-- A `Player`; the defaults are Go's zero values. -/
structure Player where
  ID : Int
  Username : String
  Score : Int := 0
  CurrentChoice : PlayerChoice := ChoiceNone
  LastMoveTime : Nat := 0
  WantsRematch : Bool := false
  deriving DecidableEq, Repr

/-- A `Session`; `Mutex` is `true` while the session's lock is held. -/
structure Session where
  ID : Int
  PlayerA : Player
  PlayerB : Player
  TotalRounds : Int
  CurrentRound : Int
  State : GameState
  Mutex : Bool := false
  History : List RoundResult
  TurnDeadline : Nat
  deriving DecidableEq, Repr

structure PendingInvite where
  InviteID : String
  InviterID : Int
  InviterUsername : String
  Rounds : Int
  deriving DecidableEq, Repr

/-- The largest value of Go's 64-bit `int`. -/
def maxInt : Int := 9223372036854775807

/-- The smallest value of Go's 64-bit `int`. -/
def minInt : Int := -9223372036854775808

/-- The two scores are `int` values to which a round's delta, at most 5, is
added without wrap-around. -/
abbrev Session.ScoresFit (s : Session) : Prop :=
  minInt ≤ s.PlayerA.Score ∧ s.PlayerA.Score + 5 ≤ maxInt ∧
    minInt ≤ s.PlayerB.Score ∧ s.PlayerB.Score + 5 ≤ maxInt

/-- The round index and the round count are `int` values and `CurrentRound++`
does not wrap around. -/
abbrev Session.RoundFits (s : Session) : Prop :=
  minInt ≤ s.CurrentRound ∧ s.CurrentRound + 1 ≤ maxInt ∧
    minInt ≤ s.TotalRounds ∧ s.TotalRounds ≤ maxInt

/-- The duration `2 * time.Minute`, in nanoseconds. -/
def twoMinutes : Nat := 2 * 60 * 1000000000

/-- The duration `5 * time.Minute`, in nanoseconds. -/
def fiveMinutes : Nat := 5 * 60 * 1000000000

/-! ## utils/helpers.go -/

/-- The table `hextable` of `encoding/hex`. -/
def hextable : String := "0123456789abcdef"

/-- One lower-case hexadecimal digit, as `hex.EncodeToString` writes it. -/
def hexDigit (n : Nat) : Char :=
  hextable.data.getD n '0'

/-- The two hexadecimal digits of a byte, high nibble first. -/
def hexByte (b : Fin 256) : List Char :=
  [hexDigit (b.val / 16), hexDigit (b.val % 16)]

/-- `GenerateID(length)`.  The argument `rnd` is what `rand.Read` does: `none`
when it fails, otherwise the bytes it writes (byte `i` of the buffer is
`f i`). -/
def GenerateID (length : Nat) (rnd : Option (Nat → Fin 256)) : Except String String :=
  match rnd with
  | none => .error "crypto/rand: read failed"
  | some f => .ok (String.mk (((List.range length).map f).flatMap hexByte))

/-! ## game/manager.go: the state -/

/-- A timer callback `func()`: the nil function, or the closure built by
`Bot.setupTurnTimer`, which calls `HandleTimeout` with the captured session's
ID. -/
inductive Callback where
  | nil
  | timeoutOf (sessionID : Int)
  deriving DecidableEq, Repr

/-- A goroutine started with `go func()` that is still asleep. -/
inductive Goroutine where
  | timerWake (sessionID : Int) (wakeAt : Nat)
  | retire (sessionID : Int) (wakeAt : Nat)
  deriving DecidableEq, Repr

/-- The state of a `sync.RWMutex`. -/
structure RWMutex where
  writer : Bool := false
  readers : Nat := 0
  deriving DecidableEq, Repr

/-- The `Manager`, with the heap of session objects and the sleeping
goroutines it has started. -/
structure Manager where
  heap : List Session
  sessions : Int → Option Nat
  pendingByID : String → Option PendingInvite
  playerToSession : Int → Option Int
  mu : RWMutex
  timerCallbacks : Int → Option Callback
  goroutines : List Goroutine

/-- `NewManager()`. -/
def NewManager : Manager where
  heap := []
  sessions := fun _ => none
  pendingByID := fun _ => none
  playerToSession := fun _ => none
  mu := {}
  timerCallbacks := fun _ => none
  goroutines := []

/-- The assignment `m[k] = v` on a Go map. -/
def mapSet {κ ν : Type} [DecidableEq κ] (f : κ → Option ν) (k : κ) (v : ν) : κ → Option ν :=
  fun x => if x = k then some v else f x

/-- The statement `delete(m, k)` on a Go map. -/
def mapDelete {κ ν : Type} [DecidableEq κ] (f : κ → Option ν) (k : κ) : κ → Option ν :=
  fun x => if x = k then none else f x

deriving instance DecidableEq for Except

/-- How a call ends: it returns a value, it waits for ever on a lock that is
held, or it dereferences a pointer that points to no session. -/
inductive Outcome (α : Type) where
  | returned (value : α) (m : Manager)
  | blocked (m : Manager)
  | panicked (m : Manager)

/-- The manager state a call leaves behind. -/
def Outcome.state {α : Type} : Outcome α → Manager
  | .returned _ m => m
  | .blocked m => m
  | .panicked m => m

/-- The value a call returned, if it returned. -/
def Outcome.value? {α : Type} : Outcome α → Option α
  | .returned v _ => some v
  | .blocked _ => none
  | .panicked _ => none

/-- Sequencing: the rest of the body runs only if the nested call returned. -/
def Outcome.andThen {α β : Type} (o : Outcome α) (k : α → Manager → Outcome β) : Outcome β :=
  match o with
  | .returned v m => k v m
  | .blocked m => .blocked m
  | .panicked m => .panicked m

/-- `m.mu.Lock()`: `none` when the lock is held by a writer or a reader. -/
def Manager.Lock (m : Manager) : Option Manager :=
  if m.mu.writer = false ∧ m.mu.readers = 0 then
    some { m with mu := { m.mu with writer := true } }
  else none

/-- `m.mu.Unlock()`. -/
def Manager.Unlock (m : Manager) : Manager :=
  { m with mu := { m.mu with writer := false } }

/-- `m.mu.RLock()`: `none` when a writer holds the lock. -/
def Manager.RLock (m : Manager) : Option Manager :=
  if m.mu.writer = false then
    some { m with mu := { m.mu with readers := m.mu.readers + 1 } }
  else none

/-- `m.mu.RUnlock()`. -/
def Manager.RUnlock (m : Manager) : Manager :=
  { m with mu := { m.mu with readers := m.mu.readers - 1 } }

/-- Overwrite the session object at address `a`. -/
def Manager.store (m : Manager) (a : Nat) (s : Session) : Manager :=
  { m with heap := m.heap.set a s }

/-- `session.Mutex.Lock()` for the session at address `a`; returns the object
as it is once the lock is taken. -/
def Manager.lockSession (m : Manager) (a : Nat) : Outcome Session :=
  match m.heap[a]? with
  | none => .panicked m
  | some s =>
    if s.Mutex then .blocked m
    else .returned { s with Mutex := true } (m.store a { s with Mutex := true })

/-- `session.Mutex.Unlock()` for the session at address `a`. -/
def Manager.unlockSession (m : Manager) (a : Nat) : Manager :=
  match m.heap[a]? with
  | none => m
  | some s => m.store a { s with Mutex := false }

/-! ## game/manager.go: the operations -/

/-- `CreateInvite`. -/
def Manager.CreateInvite (m : Manager) (rnd : Option (Nat → Fin 256)) (inviterID : Int)
    (inviterUsername : String) (rounds : Int) : Outcome (Except String String) :=
  match m.Lock with
  | none => .blocked m
  | some m1 =>
    match GenerateID 8 rnd with
    | .error err =>
      .returned (.error ("не удалось сгенерировать ID приглашения: " ++ err)) m1.Unlock
    | .ok inviteID =>
      let invite : PendingInvite :=
        { InviteID := inviteID, InviterID := inviterID,
          InviterUsername := inviterUsername, Rounds := rounds }
      .returned (.ok inviteID)
        (Manager.Unlock { m1 with pendingByID := mapSet m1.pendingByID inviteID invite })

/-- The session object `AcceptInvite` allocates. -/
def newSession (invite : PendingInvite) (accepterID : Int) (accepterUsername : String)
    (now : Nat) : Session where
  ID := invite.InviterID
  PlayerA := { ID := invite.InviterID, Username := invite.InviterUsername }
  PlayerB := { ID := accepterID, Username := accepterUsername }
  TotalRounds := invite.Rounds
  CurrentRound := 1
  State := .StateInProgress
  History := []
  TurnDeadline := now + twoMinutes

/-- `AcceptInvite`; the value returned on success is the address of the new
session. -/
def Manager.AcceptInvite (m : Manager) (now : Nat) (inviteID : String) (accepterID : Int)
    (accepterUsername : String) : Outcome (Except String Nat) :=
  match m.Lock with
  | none => .blocked m
  | some m1 =>
    match m1.pendingByID inviteID with
    | none => .returned (.error "это приглашение недействительно или истекло") m1.Unlock
    | some invite =>
      if invite.InviterID = accepterID then
        .returned (.error "вы не можете принять собственное приглашение") m1.Unlock
      else
        let session := newSession invite accepterID accepterUsername now
        let a := m1.heap.length
        .returned (.ok a)
          (Manager.Unlock
            { m1 with
              heap := m1.heap ++ [session]
              sessions := mapSet m1.sessions session.ID a
              playerToSession :=
                mapSet (mapSet m1.playerToSession session.PlayerA.ID session.ID)
                  session.PlayerB.ID session.ID
              pendingByID := mapDelete m1.pendingByID inviteID })

/-- `FindSessionByPlayerID`: the address of the player's session, if any. -/
def Manager.FindSessionByPlayerID (m : Manager) (playerID : Int) : Outcome (Option Nat) :=
  match m.RLock with
  | none => .blocked m
  | some m1 =>
    match m1.playerToSession playerID with
    | none => .returned none m1.RUnlock
    | some sessionID => .returned (m1.sessions sessionID) m1.RUnlock

/-- `clearTimer`. -/
def Manager.clearTimer (m : Manager) (sessionID : Int) : Outcome Unit :=
  match m.Lock with
  | none => .blocked m
  | some m1 =>
    .returned ()
      (Manager.Unlock { m1 with timerCallbacks := mapDelete m1.timerCallbacks sessionID })

/-- `endGame`; `now` is the time at which the retirement goroutine is
started. -/
def Manager.endGame (m : Manager) (now : Nat) (sessionID : Int) : Outcome Unit :=
  match m.Lock with
  | none => .blocked m
  | some m1 =>
    match m1.sessions sessionID with
    | none => .returned () m1.Unlock
    | some _ =>
      (m1.clearTimer sessionID).andThen fun _ m2 =>
        .returned ()
          (Manager.Unlock
            { m2 with goroutines := m2.goroutines ++ [.retire sessionID (now + fiveMinutes)] })

/-- The body of the goroutine `endGame` starts, once its sleep is over. -/
def Manager.retireWake (m : Manager) (sessionID : Int) : Outcome Unit :=
  match m.Lock with
  | none => .blocked m
  | some m1 =>
    match m1.sessions sessionID with
    | none => .returned () m1.Unlock
    | some a =>
      match m1.heap[a]? with
      | none => .panicked m1
      | some currentSession =>
        if currentSession.State = .StateFinished then
          .returned ()
            (Manager.Unlock
              { m1 with
                playerToSession :=
                  mapDelete (mapDelete m1.playerToSession currentSession.PlayerA.ID)
                    currentSession.PlayerB.ID
                sessions := mapDelete m1.sessions sessionID })
        else .returned () m1.Unlock

/-- Which of the two players of a session a returned `*models.Player` is. -/
inductive Side where
  | A
  | B
  deriving DecidableEq, Repr

/-- `ForfeitGame`; on success the session's address and the winner. -/
def Manager.ForfeitGame (m : Manager) (now : Nat) (playerID : Int) :
    Outcome (Except String (Nat × Side)) :=
  (m.FindSessionByPlayerID playerID).andThen fun found m1 =>
    match found with
    | none => .returned (.error "вы не находитесь в активной игре") m1
    | some a =>
      (m1.lockSession a).andThen fun session m2 =>
        if session.State ≠ .StateInProgress then
          .returned (.error "эта игра уже завершена") (m2.unlockSession a)
        else
          let winner := if playerID = session.PlayerA.ID then Side.B else Side.A
          let session1 := { session with State := .StateFinished }
          ((m2.store a session1).endGame now session1.ID).andThen fun _ m3 =>
            .returned (.ok (a, winner)) (m3.unlockSession a)

/-- The assignments of `RecordChoice` to the chosen player (lines 144-150). -/
def Session.setChoice (session : Session) (playerID : Int) (choice : PlayerChoice)
    (now : Nat) : Session :=
  if playerID = session.PlayerB.ID then
    { session with
      PlayerB := { session.PlayerB with CurrentChoice := choice, LastMoveTime := now } }
  else
    { session with
      PlayerA := { session.PlayerA with CurrentChoice := choice, LastMoveTime := now } }

/-- The test `bothPlayersChose` of `RecordChoice`. -/
def Session.bothPlayersChose (session : Session) : Bool :=
  decide (session.PlayerA.CurrentChoice ≠ ChoiceNone ∧ session.PlayerB.CurrentChoice ≠ ChoiceNone)

/-- `RecordChoice`; on success the session's address and `bothPlayersChose`. -/
def Manager.RecordChoice (m : Manager) (now : Nat) (playerID : Int) (choice : PlayerChoice) :
    Outcome (Except String (Nat × Bool)) :=
  (m.FindSessionByPlayerID playerID).andThen fun found m1 =>
    match found with
    | none => .returned (.error "активная игра не найдена") m1
    | some a =>
      (m1.lockSession a).andThen fun session m2 =>
        if session.State ≠ .StateInProgress then
          .returned (.error "игра не в процессе") (m2.unlockSession a)
        else
          let session1 := session.setChoice playerID choice now
          let m3 := m2.store a session1
          if session1.bothPlayersChose then
            (m3.clearTimer session1.ID).andThen fun _ m4 =>
              .returned (.ok (a, true)) (m4.unlockSession a)
          else
            .returned (.ok (a, false)) (m3.unlockSession a)

/-- The `switch` of `ProcessRound`: the two score deltas and the two result
texts; no case matching leaves the zero values. -/
def roundOutcome (choiceA choiceB : PlayerChoice) (usernameA usernameB : String) :
    Int × Int × String × String :=
  if choiceA = ChoiceNegotiate ∧ choiceB = ChoiceNegotiate then
    (3, 3, "Вы оба выбрали сотрудничество 🤝.", "Вы оба выбрали сотрудничество 🤝.")
  else if choiceA = ChoiceNegotiate ∧ choiceB = ChoiceDefect then
    (0, 5, "Вы сотрудничали 😇, но " ++ usernameB ++ " предал 😈.",
      usernameA ++ " сотрудничал 😇, но вы предали 😈.")
  else if choiceA = ChoiceDefect ∧ choiceB = ChoiceNegotiate then
    (5, 0, "Вы предали 😈, пока " ++ usernameB ++ " сотрудничал 😇.",
      "Вы сотрудничали 😇, но " ++ usernameA ++ " предал 😈.")
  else if choiceA = ChoiceDefect ∧ choiceB = ChoiceDefect then
    (1, 1, "Вы оба выбрали предательство ⚔️.", "Вы оба выбрали предательство ⚔️.")
  else (0, 0, "", "")

/-- The text `Sprintf` builds for a round summary. -/
def roundSummary (mine theirs : Int) : String :=
  "Вы получили " ++ toString mine ++ " очков. Соперник получил " ++ toString theirs ++ " очков."

/-- The body of `ProcessRound` between taking and releasing the session's
lock (lines 165-223): the session afterwards and the two messages.  `now₁` is
the clock read for the round's timestamp, `now₂` the one for the deadline. -/
def Session.ProcessRound (session : Session) (now₁ now₂ : Nat) : Session × String × String :=
  let pA := session.PlayerA
  let pB := session.PlayerB
  let choiceA := pA.CurrentChoice
  let choiceB := pB.CurrentChoice
  let out := roundOutcome choiceA choiceB pA.Username pB.Username
  let scoreA := out.1
  let scoreB := out.2.1
  let roundResult : RoundResult :=
    { Round := session.CurrentRound, PlayerAChoice := choiceA, PlayerBChoice := choiceB,
      PlayerAScore := scoreA, PlayerBScore := scoreB, Timestamp := now₁ }
  let resultMsgA := out.2.2.1 ++ "\n" ++ roundSummary scoreA scoreB
  let resultMsgB := out.2.2.2 ++ "\n" ++ roundSummary scoreB scoreA
  let currentRound := session.CurrentRound + 1
  let advanced : Session :=
    { session with
      PlayerA := { pA with Score := pA.Score + scoreA, CurrentChoice := ChoiceNone }
      PlayerB := { pB with Score := pB.Score + scoreB, CurrentChoice := ChoiceNone }
      History := session.History ++ [roundResult]
      CurrentRound := currentRound }
  if currentRound > session.TotalRounds then
    ({ advanced with State := .StateFinished }, resultMsgA, resultMsgB)
  else
    ({ advanced with TurnDeadline := now₂ + twoMinutes }, resultMsgA, resultMsgB)

/-- `ProcessRound` on the session at address `a`. -/
def Manager.ProcessRound (m : Manager) (now₁ now₂ : Nat) (a : Nat) : Outcome (String × String) :=
  (m.lockSession a).andThen fun session m1 =>
    let r := session.ProcessRound now₁ now₂
    .returned r.2 ((m1.store a r.1).unlockSession a)

/-- `ClearPlayerSession`. -/
def Manager.ClearPlayerSession (m : Manager) (playerID : Int) : Outcome Unit :=
  match m.Lock with
  | none => .blocked m
  | some m1 =>
    .returned ()
      (Manager.Unlock { m1 with playerToSession := mapDelete m1.playerToSession playerID })

/-- The assignment of `SetRematchPreference` to the caller's flag (lines
250-254). -/
def Session.setWantsRematch (session : Session) (playerID : Int) (wantsRematch : Bool) :
    Session :=
  if playerID = session.PlayerA.ID then
    { session with PlayerA := { session.PlayerA with WantsRematch := wantsRematch } }
  else
    { session with PlayerB := { session.PlayerB with WantsRematch := wantsRematch } }

/-- `SetRematchPreference`; on success the session's address and
`bothWantRematch`. -/
def Manager.SetRematchPreference (m : Manager) (playerID : Int) (wantsRematch : Bool) :
    Outcome (Except String (Nat × Bool)) :=
  match m.RLock with
  | none => .blocked m
  | some r1 =>
    let m1 := r1.RUnlock
    match r1.playerToSession playerID with
    | none => .returned (.error "вы не находитесь в игре") m1
    | some sessionID =>
      match m1.RLock with
      | none => .blocked m1
      | some r2 =>
        let m2 := r2.RUnlock
        match r2.sessions sessionID with
        | none => .returned (.error "сессия не найдена") m2
        | some a =>
          (m2.lockSession a).andThen fun session m3 =>
            if session.State ≠ .StateFinished then
              .returned (.error "игра еще не завершена") (m3.unlockSession a)
            else
              let session1 := session.setWantsRematch playerID wantsRematch
              let m4 := m3.store a session1
              if wantsRematch = false then
                (m4.ClearPlayerSession session1.PlayerA.ID).andThen fun _ m5 =>
                  (m5.ClearPlayerSession session1.PlayerB.ID).andThen fun _ m6 =>
                    .returned (.ok (a, false)) (m6.unlockSession a)
              else
                let bothWantRematch :=
                  session1.PlayerA.WantsRematch && session1.PlayerB.WantsRematch
                .returned (.ok (a, bothWantRematch)) (m4.unlockSession a)

/-- The session object `StartRematch` allocates from the old one. -/
def rematchSession (oldSession : Session) (now : Nat) : Session where
  ID := oldSession.ID
  PlayerA :=
    { ID := oldSession.PlayerA.ID, Username := oldSession.PlayerA.Username, Score := 0,
      CurrentChoice := ChoiceNone, WantsRematch := false }
  PlayerB :=
    { ID := oldSession.PlayerB.ID, Username := oldSession.PlayerB.Username, Score := 0,
      CurrentChoice := ChoiceNone, WantsRematch := false }
  TotalRounds := oldSession.TotalRounds
  CurrentRound := 1
  State := .StateInProgress
  History := []
  TurnDeadline := now + twoMinutes

/-- `StartRematch`; the value returned on success is the address of the new
session. -/
def Manager.StartRematch (m : Manager) (now : Nat) (sessionID : Int) :
    Outcome (Except String Nat) :=
  match m.Lock with
  | none => .blocked m
  | some m1 =>
    match m1.sessions sessionID with
    | none => .returned (.error "исходная сессия не найдена") m1.Unlock
    | some old =>
      match m1.heap[old]? with
      | none => .panicked m1
      | some oldSession =>
        let session := rematchSession oldSession now
        let a := m1.heap.length
        .returned (.ok a)
          (Manager.Unlock
            { m1 with
              heap := m1.heap ++ [session]
              sessions := mapSet m1.sessions sessionID a
              playerToSession :=
                mapSet (mapSet m1.playerToSession session.PlayerA.ID sessionID)
                  session.PlayerB.ID sessionID })

/-- `SetTurnTimer`; `now` is the time at which the sleeping goroutine is
started. -/
def Manager.SetTurnTimer (m : Manager) (now : Nat) (sessionID : Int) (onTimeout : Callback) :
    Outcome Unit :=
  match m.Lock with
  | none => .blocked m
  | some m1 =>
    .returned ()
      (Manager.Unlock
        { m1 with
          timerCallbacks := mapSet m1.timerCallbacks sessionID onTimeout
          goroutines := m1.goroutines ++ [.timerWake sessionID (now + twoMinutes)] })

/-- The body of the goroutine `SetTurnTimer` starts, once its sleep is over:
the callback it goes on to call, if any. -/
def Manager.timerWake (m : Manager) (sessionID : Int) : Outcome (Option Callback) :=
  match m.RLock with
  | none => .blocked m
  | some m1 =>
    match m1.timerCallbacks sessionID with
    | none => .returned none m1.RUnlock
    | some callback =>
      if callback ≠ .nil then .returned (some callback) m1.RUnlock
      else .returned none m1.RUnlock

/-- The assignment of `HandleTimeout` to the player it times out (lines
351-360), and the side of the other, active player. -/
def Session.forceDefect (session : Session) : Session × Side :=
  if session.PlayerA.CurrentChoice = ChoiceNone then
    ({ session with PlayerA := { session.PlayerA with CurrentChoice := ChoiceDefect } }, Side.B)
  else
    ({ session with PlayerB := { session.PlayerB with CurrentChoice := ChoiceDefect } }, Side.A)

/-- The player record on a side of a session. -/
def Session.player (session : Session) : Side → Player
  | .A => session.PlayerA
  | .B => session.PlayerB

/-- The last three statements of `HandleTimeout` (lines 366-369). -/
def Manager.finishTimeout (m : Manager) (a : Nat) (sessionID : Int) (activePlayer : Side) :
    Outcome (Except String (Nat × Side)) :=
  match m.heap[a]? with
  | none => .panicked m
  | some session =>
    ((m.store a { session with State := .StateFinished }).clearTimer sessionID).andThen
      fun _ m1 => .returned (.ok (a, activePlayer)) (m1.unlockSession a)

/-- `HandleTimeout`; on success the session's address and the active
player. -/
def Manager.HandleTimeout (m : Manager) (now₁ now₂ : Nat) (sessionID : Int) :
    Outcome (Except String (Nat × Side)) :=
  (m.FindSessionByPlayerID sessionID).andThen fun found m1 =>
    match found with
    | none => .returned (.error "сессия не найдена") m1
    | some a =>
      (m1.lockSession a).andThen fun session m2 =>
        if session.State ≠ .StateInProgress then
          .returned (.error "игра не в процессе") (m2.unlockSession a)
        else
          let forced := session.forceDefect
          let m3 := m2.store a forced.1
          if (forced.1.player forced.2).CurrentChoice ≠ ChoiceNone then
            (m3.ProcessRound now₁ now₂ a).andThen fun _ m4 =>
              m4.finishTimeout a sessionID forced.2
          else
            m3.finishTimeout a sessionID forced.2

/-- The other side. -/
def Side.other : Side → Side
  | .A => .B
  | .B => .A

/-- Successive `RecordChoice` calls `(now, playerID, choice)`, each made in
the state the one before left: for each call the `bothPlayersChose` it
returned, or `none` if it returned an error or did not return. -/
def recordChoices (m : Manager) : List (Nat × Int × PlayerChoice) → List (Option Bool)
  | [] => []
  | (now, playerID, choice) :: rest =>
    (match m.RecordChoice now playerID choice with
      | .returned (.ok (_, b)) _ => some b
      | _ => none) :: recordChoices (m.RecordChoice now playerID choice).state rest

/-! ## bot/handlers.go: the manager calls of `handleGameChoice` -/

/-- The calls `Bot.handleGameChoice` makes on the manager (lines 163-197):
`RecordChoice`, then, when `bothChose`, `ProcessRound` on the returned session
and, if the session is not finished after it, `SetTurnTimer` for the session's
ID through `setupTurnTimer` (lines 344-361), with the closure that calls
`HandleTimeout`.  `now₃` is the time at which the timer is armed. -/
def handleGameChoice (m : Manager) (now now₁ now₂ now₃ : Nat) (playerID : Int)
    (choice : PlayerChoice) : Outcome (Except String (Nat × Bool)) :=
  (m.RecordChoice now playerID choice).andThen fun r m1 =>
    match r with
    | .error err => .returned (.error err) m1
    | .ok (a, bothChose) =>
      if bothChose then
        (m1.ProcessRound now₁ now₂ a).andThen fun _ m2 =>
          match m2.heap[a]? with
          | none => .panicked m2
          | some session =>
            if session.State = .StateFinished then .returned (.ok (a, true)) m2
            else
              (m2.SetTurnTimer now₃ session.ID (.timeoutOf session.ID)).andThen fun _ m3 =>
                .returned (.ok (a, true)) m3
      else .returned (.ok (a, false)) m1

/-! ## Sequences of calls -/

/-- A call of one of the manager's operations, with its arguments. -/
inductive Call where
  | CreateInvite (rnd : Option (Nat → Fin 256)) (inviterID : Int) (inviterUsername : String)
      (rounds : Int)
  | AcceptInvite (now : Nat) (inviteID : String) (accepterID : Int) (accepterUsername : String)
  | RecordChoice (now : Nat) (playerID : Int) (choice : PlayerChoice)
  | ProcessRound (now₁ now₂ : Nat) (session : Nat)
  | HandleTimeout (now₁ now₂ : Nat) (sessionID : Int)
  | ForfeitGame (now : Nat) (playerID : Int)
  | SetRematchPreference (playerID : Int) (wantsRematch : Bool)
  | StartRematch (now : Nat) (sessionID : Int)

/-- The state a call leaves the manager in, whether it returned or not. -/
def Manager.run (m : Manager) : Call → Manager
  | .CreateInvite rnd inviterID inviterUsername rounds =>
    (m.CreateInvite rnd inviterID inviterUsername rounds).state
  | .AcceptInvite now inviteID accepterID accepterUsername =>
    (m.AcceptInvite now inviteID accepterID accepterUsername).state
  | .RecordChoice now playerID choice => (m.RecordChoice now playerID choice).state
  | .ProcessRound now₁ now₂ session => (m.ProcessRound now₁ now₂ session).state
  | .HandleTimeout now₁ now₂ sessionID => (m.HandleTimeout now₁ now₂ sessionID).state
  | .ForfeitGame now playerID => (m.ForfeitGame now playerID).state
  | .SetRematchPreference playerID wantsRematch =>
    (m.SetRematchPreference playerID wantsRematch).state
  | .StartRematch now sessionID => (m.StartRematch now sessionID).state

/-- The manager states that calls of the eight operations lead to from a
fresh manager. -/
inductive Reachable : Manager → Prop where
  | fresh : Reachable NewManager
  | call (m : Manager) (c : Call) : Reachable m → Reachable (m.run c)

/-- The caller's duty before `AcceptInvite`: the accepter is not in the
player-to-session index. -/
def Call.accepterFree (m : Manager) : Call → Prop
  | .AcceptInvite _ _ accepterID _ => m.playerToSession accepterID = none
  | _ => True

/-- The states reachable when every `AcceptInvite` is made for an accepter who
is not in the index. -/
inductive ReachableChecked : Manager → Prop where
  | fresh : ReachableChecked NewManager
  | call (m : Manager) (c : Call) :
      ReachableChecked m → c.accepterFree m → ReachableChecked (m.run c)

/-- A step of play in which `ProcessRound` is called exactly when
`RecordChoice` has returned `bothChose`, as `handleGameChoice` does. -/
inductive Action where
  | CreateInvite (rnd : Option (Nat → Fin 256)) (inviterID : Int) (inviterUsername : String)
      (rounds : Int)
  | AcceptInvite (now : Nat) (inviteID : String) (accepterID : Int) (accepterUsername : String)
  | GameChoice (now now₁ now₂ now₃ : Nat) (playerID : Int) (choice : PlayerChoice)
  | HandleTimeout (now₁ now₂ : Nat) (sessionID : Int)
  | ForfeitGame (now : Nat) (playerID : Int)
  | SetRematchPreference (playerID : Int) (wantsRematch : Bool)
  | StartRematch (now : Nat) (sessionID : Int)

/-- The state an action leaves the manager in. -/
def Manager.act (m : Manager) : Action → Manager
  | .CreateInvite rnd inviterID inviterUsername rounds =>
    (m.CreateInvite rnd inviterID inviterUsername rounds).state
  | .AcceptInvite now inviteID accepterID accepterUsername =>
    (m.AcceptInvite now inviteID accepterID accepterUsername).state
  | .GameChoice now now₁ now₂ now₃ playerID choice =>
    (handleGameChoice m now now₁ now₂ now₃ playerID choice).state
  | .HandleTimeout now₁ now₂ sessionID => (m.HandleTimeout now₁ now₂ sessionID).state
  | .ForfeitGame now playerID => (m.ForfeitGame now playerID).state
  | .SetRematchPreference playerID wantsRematch =>
    (m.SetRematchPreference playerID wantsRematch).state
  | .StartRematch now sessionID => (m.StartRematch now sessionID).state

/-- The states reachable by play. -/
inductive ReachableByPlay : Manager → Prop where
  | fresh : ReachableByPlay NewManager
  | act (m : Manager) (c : Action) : ReachableByPlay m → ReachableByPlay (m.act c)

/-! ## Properties of every session object -/

/-- Every session object on the heap has the property `P`. -/
def Manager.All (P : Session → Prop) (m : Manager) : Prop :=
  ∀ s ∈ m.heap, P s

/-- A property of sessions kept by every assignment the manager makes to a
session other than round resolution, and true of the sessions it allocates. -/
structure Stable (P : Session → Prop) : Prop where
  mutex : ∀ s b, P s → P { s with Mutex := b }
  choice : ∀ s playerID choice now, P s → P (s.setChoice playerID choice now)
  rematchFlag : ∀ s playerID wants, P s → P (s.setWantsRematch playerID wants)
  finished : ∀ s, P s → P { s with State := .StateFinished }
  forced : ∀ s, P s → P s.forceDefect.1
  fresh : ∀ invite accepterID accepterUsername now,
    P (newSession invite accepterID accepterUsername now)
  rematch : ∀ old now, P old → P (rematchSession old now)

/-- The cumulative scores of a session are the sums of the score deltas
recorded in its history. -/
def Session.ScoresMatchHistory (s : Session) : Prop :=
  s.PlayerA.Score = (s.History.map (·.PlayerAScore)).sum ∧
    s.PlayerB.Score = (s.History.map (·.PlayerBScore)).sum

/-- For a session with a positive round count: the round index is one more
than the number of resolved rounds, it is at most `TotalRounds + 1`, and a
session that has reached `TotalRounds + 1` is finished. -/
def Session.RoundsBounded (s : Session) : Prop :=
  0 < s.TotalRounds →
    (s.History.length : Int) + 1 = s.CurrentRound ∧ s.CurrentRound ≤ s.TotalRounds + 1 ∧
      (s.CurrentRound = s.TotalRounds + 1 → s.State = .StateFinished)

/-! ## A match played from a fresh manager -/

/-- The token `GenerateID` returns when `rand.Read` writes zero bytes. -/
def zeroToken : String := "0000000000000000"

/-- Player 1 has created an invite for three rounds. -/
def invited : Manager := (NewManager.CreateInvite (some fun _ => 0) 1 "alice" 3).state

/-- Player 2 has accepted it. -/
def started : Manager := (invited.AcceptInvite 0 zeroToken 2 "bob").state

/-- Player 1 has chosen to defect. -/
def oneChose : Manager := (started.RecordChoice 10 1 ChoiceDefect).state

/-- Player 2 has chosen to cooperate. -/
def bothChose : Manager := (oneChose.RecordChoice 20 2 ChoiceNegotiate).state

/-- The session of that match once both have chosen. -/
def bothChoseSession : Session where
  ID := 1
  PlayerA := { ID := 1, Username := "alice", CurrentChoice := ChoiceDefect, LastMoveTime := 10 }
  PlayerB := { ID := 2, Username := "bob", CurrentChoice := ChoiceNegotiate, LastMoveTime := 20 }
  TotalRounds := 3
  CurrentRound := 1
  State := .StateInProgress
  History := []
  TurnDeadline := twoMinutes

/-- The first round of that match has been resolved. -/
def played : Manager := (bothChose.ProcessRound 30 31 0).state

/-- The session of that match after its first round. -/
def playedSession : Session where
  ID := 1
  PlayerA := { ID := 1, Username := "alice", Score := 5, LastMoveTime := 10 }
  PlayerB := { ID := 2, Username := "bob", Score := 0, LastMoveTime := 20 }
  TotalRounds := 3
  CurrentRound := 2
  State := .StateInProgress
  History :=
    [{ Round := 1, PlayerAChoice := ChoiceDefect, PlayerBChoice := ChoiceNegotiate,
       PlayerAScore := 5, PlayerBScore := 0, Timestamp := 30 }]
  TurnDeadline := 31 + twoMinutes

/-- A match of one round, played to its end through `handleGameChoice`:
player 1 invites, player 2 accepts, both cooperate. -/
def shortMatch : Manager :=
  (((NewManager.act (.CreateInvite (some fun _ => 0) 1 "alice" 1)).act
    (.AcceptInvite 0 zeroToken 2 "bob")).act
    (.GameChoice 10 30 31 32 1 ChoiceNegotiate)).act
    (.GameChoice 20 30 31 32 2 ChoiceNegotiate)

/-- The session of the one-round match at its end. -/
def shortMatchSession : Session where
  ID := 1
  PlayerA := { ID := 1, Username := "alice", Score := 3, LastMoveTime := 10 }
  PlayerB := { ID := 2, Username := "bob", Score := 3, LastMoveTime := 20 }
  TotalRounds := 1
  CurrentRound := 2
  State := .StateFinished
  History :=
    [{ Round := 1, PlayerAChoice := ChoiceNegotiate, PlayerBChoice := ChoiceNegotiate,
       PlayerAScore := 3, PlayerBScore := 3, Timestamp := 30 }]
  TurnDeadline := twoMinutes

/-- The token `GenerateID` returns when `rand.Read` writes bytes of value 1. -/
def oneToken : String := "0101010101010101"

/-- Players 1 and 2 each create an invite; player 2 accepts the invite of
player 1, then player 3 accepts the invite of player 2.  Neither accepter is
in the player-to-session index when they accept. -/
def doubleBooked : Manager :=
  (((NewManager.run (.CreateInvite (some fun _ => 0) 1 "alice" 3)).run
    (.CreateInvite (some fun _ => 1) 2 "bob" 3)).run
    (.AcceptInvite 0 zeroToken 2 "bob")).run (.AcceptInvite 5 oneToken 3 "carol")

/-! ## Rematch negotiation and further scenarios -/

/-- The call stopped at a lock and never returns. -/
def Outcome.isBlocked {α : Type} : Outcome α → Bool
  | .blocked _ => true
  | _ => false

/-- The calls `Bot.handleRematchChoice` makes on the manager (lines 295-328):
`SetRematchPreference`, then `StartRematch` on the returned session's ID when
the player wants a rematch and `bothWantRematch`.  The value on success is the
address of the rematch session, if one was started. -/
def handleRematchChoice (m : Manager) (now : Nat) (playerID : Int) (wantsRematch : Bool) :
    Outcome (Except String (Option Nat)) :=
  (m.SetRematchPreference playerID wantsRematch).andThen fun r m1 =>
    match r with
    | .error err => .returned (.error err) m1
    | .ok (a, bothWantRematch) =>
      if wantsRematch = false then .returned (.ok none) m1
      else if bothWantRematch then
        match m1.heap[a]? with
        | none => .panicked m1
        | some session =>
          (m1.StartRematch now session.ID).andThen fun r2 m2 =>
            match r2 with
            | .error err => .returned (.error err) m2
            | .ok a2 => .returned (.ok (some a2)) m2
      else .returned (.ok none) m1

/-- For a session with a positive round count that is in progress, the round
index lies between 1 and `TotalRounds`. -/
def Session.RoundInRange (s : Session) : Prop :=
  0 < s.TotalRounds → s.State = .StateInProgress →
    1 ≤ s.CurrentRound ∧ s.CurrentRound ≤ s.TotalRounds

/-- In the match `started`, player 2 has chosen to cooperate and player 1 has
not chosen. -/
def accepterChose : Manager := (started.RecordChoice 10 2 ChoiceNegotiate).state

/-- The session of the match `started`. -/
def startedSession : Session := newSession ⟨zeroToken, 1, "alice", 3⟩ 2 "bob" 0

/-! ## Further scenarios: swapped moves, re-armed timers, a replaced session -/

/-- In the match `started`, the turn timer of session 1 is armed at time 0
and armed again one minute later. -/
def rearmed : Manager :=
  ((started.SetTurnTimer 0 1 (.timeoutOf 1)).state.SetTurnTimer 60000000000 1
    (.timeoutOf 1)).state

/-- In the match `started`, the turn timer of session 1 is armed at time 0,
cleared, and armed again one minute after the first arming. -/
def rearmedAfterClear : Manager :=
  (((started.SetTurnTimer 0 1 (.timeoutOf 1)).state.clearTimer 1).state.SetTurnTimer
    60000000000 1 (.timeoutOf 1)).state

/-- Player 1 creates two invites; player 2 accepts the first, then player 3
accepts the second.  Neither accepter is in the player-to-session index when
they accept. -/
def overwritten : Manager :=
  (((NewManager.run (.CreateInvite (some fun _ => 0) 1 "alice" 3)).run
    (.CreateInvite (some fun _ => 1) 1 "alice" 3)).run
    (.AcceptInvite 0 zeroToken 2 "bob")).run (.AcceptInvite 5 oneToken 3 "carol")

/-! ## Round resolution on sessions in progress, and further scenarios -/

/-- The condition under which `handleGameChoice` calls `ProcessRound`: the
session passed to it is in progress, as it is directly after the
`RecordChoice` that returned `bothChose`. -/
def Call.resolvesOpenRound (m : Manager) : Call → Prop
  | .ProcessRound _ _ a => ∀ s, m.heap[a]? = some s → s.State = .StateInProgress
  | _ => True

/-- The states reachable by calls of the eight operations when `ProcessRound`
is only called for a session that is in progress. -/
inductive ReachableInPlay : Manager → Prop where
  | fresh : ReachableInPlay NewManager
  | call (m : Manager) (c : Call) :
      ReachableInPlay m → c.resolvesOpenRound m → ReachableInPlay (m.run c)

/-- A match of one round between players 1 and 2, accepted and not yet
played. -/
def startedShort : Manager :=
  (NewManager.run (.CreateInvite (some fun _ => 0) 1 "alice" 1)).run
    (.AcceptInvite 0 zeroToken 2 "bob")

/-- The one-round match played by single calls: both players cooperate and
`ProcessRound` is called once. -/
def playedShort : Manager :=
  ((startedShort.run (.RecordChoice 10 1 ChoiceNegotiate)).run
    (.RecordChoice 20 2 ChoiceNegotiate)).run (.ProcessRound 30 31 0)

/-- The one-round match in which player 1 submits, player 2 submits, player 1
submits again, and `ProcessRound` is then called once for each of the two
`RecordChoice` calls that returned `bothChose = true`. -/
def resolvedTwice : Manager :=
  ((((startedShort.run (.RecordChoice 10 1 ChoiceNegotiate)).run
    (.RecordChoice 20 2 ChoiceNegotiate)).run (.RecordChoice 25 1 ChoiceNegotiate)).run
    (.ProcessRound 30 31 0)).run (.ProcessRound 32 33 0)

/-- The match `started` after its first round, played through
`handleGameChoice`: the round is resolved and the turn timer of session 1 is
armed at time 32. -/
def roundTwo : Manager :=
  (started.act (.GameChoice 10 30 31 32 1 ChoiceDefect)).act
    (.GameChoice 20 30 31 32 2 ChoiceNegotiate)

/-- In round two, player 1 has chosen to defect. -/
def armedOneChose : Manager := (roundTwo.RecordChoice 50 1 ChoiceDefect).state

/-- The timer goroutine has woken and read the callback; before the callback
runs, player 2 chooses to cooperate. -/
def racedTimer : Manager :=
  ((armedOneChose.timerWake 1).state.RecordChoice 60 2 ChoiceNegotiate).state

/-- The state `overwritten` after `HandleTimeout(1)` has ended the session
stored under id 1, in which nobody had chosen. -/
def overwrittenFinished : Manager := overwritten.run (.HandleTimeout 40 41 1)

/-! ## Locks and the heap: basic facts -/

theorem choice_negotiate_ne_defect : ChoiceNegotiate ≠ ChoiceDefect := by decide

theorem choice_negotiate_ne_none : ChoiceNegotiate ≠ ChoiceNone := by decide

theorem choice_defect_ne_none : ChoiceDefect ≠ ChoiceNone := by decide

theorem heap_store (m : Manager) (a : Nat) (s : Session) :
    (m.store a s).heap = m.heap.set a s := rfl

theorem store_get_self {m : Manager} {a : Nat} {s₀ : Session} (s : Session)
    (h : m.heap[a]? = some s₀) : (m.store a s).heap[a]? = some s := by
  have hlt : a < m.heap.length := (List.getElem?_eq_some.mp h).1
  simp [Manager.store, hlt]

theorem store_store (m : Manager) (a : Nat) (s t : Session) :
    (m.store a s).store a t = m.store a t := by
  simp [Manager.store, List.set_set]

theorem store_same {m : Manager} {a : Nat} {s : Session} (h : m.heap[a]? = some s) :
    m.store a s = m := by
  have : m.heap.set a s = m.heap := by
    apply List.ext_getElem?
    intro i
    by_cases hi : a = i
    · subst hi
      rw [List.getElem?_set_self (List.getElem?_eq_some.mp h).1, h]
    · rw [List.getElem?_set_ne hi]
  simp [Manager.store, this]

theorem lockSession_free {m : Manager} {a : Nat} {s : Session} (h : m.heap[a]? = some s)
    (hm : s.Mutex = false) :
    m.lockSession a =
      .returned { s with Mutex := true } (m.store a { s with Mutex := true }) := by
  simp [Manager.lockSession, h, hm]

theorem lockSession_held {m : Manager} {a : Nat} {s : Session} (h : m.heap[a]? = some s)
    (hm : s.Mutex = true) : m.lockSession a = .blocked m := by
  simp [Manager.lockSession, h, hm]

theorem unlockSession_store {m : Manager} {a : Nat} {s₀ : Session} (s : Session)
    (h : m.heap[a]? = some s₀) :
    (m.store a s).unlockSession a = m.store a { s with Mutex := false } := by
  simp [Manager.unlockSession, store_get_self s h, store_store]

theorem processRound_mutex (s : Session) (now₁ now₂ : Nat) (b : Bool) :
    ({ s with Mutex := b }.ProcessRound now₁ now₂).1
        = { (s.ProcessRound now₁ now₂).1 with Mutex := b }
      ∧ ({ s with Mutex := b }.ProcessRound now₁ now₂).2 = (s.ProcessRound now₁ now₂).2 := by
  unfold Session.ProcessRound
  by_cases h : s.CurrentRound + 1 > s.TotalRounds <;> simp [h]

/-- What `ProcessRound` does when the session's lock is free. -/
theorem processRound_run {m : Manager} {a : Nat} {s : Session} (now₁ now₂ : Nat)
    (h : m.heap[a]? = some s) (hm : s.Mutex = false) :
    m.ProcessRound now₁ now₂ a
      = .returned (s.ProcessRound now₁ now₂).2 (m.store a (s.ProcessRound now₁ now₂).1) := by
  have hmut : (s.ProcessRound now₁ now₂).1.Mutex = false := by
    unfold Session.ProcessRound
    by_cases hc : s.CurrentRound + 1 > s.TotalRounds <;> simp [hc, hm]
  have h1 := store_get_self { s with Mutex := true } h
  simp only [Manager.ProcessRound, lockSession_free h hm, Outcome.andThen,
    (processRound_mutex s now₁ now₂ true).1, (processRound_mutex s now₁ now₂ true).2,
    store_store, unlockSession_store _ h]
  congr 2
  rw [← hmut]

/-! ## Round resolution -/

/-- C1: when the lock of the session at `a` is free, its two scores fit (Go's
`Score += delta` does not wrap around) and its two pending choices are each
cooperate or defect, `ProcessRound` returns, the two scores grow by exactly
the payoff-table deltas (3,3 / 0,5 / 5,0 / 1,1), and the history grows by one
`RoundResult` holding those two choices, those two deltas and the round index
the session had before the call; the new scores are values of Go's `int`. -/
theorem processRound_payoff (m : Manager) (a : Nat) (s : Session) (now₁ now₂ : Nat)
    (h : m.heap[a]? = some s) (hfree : s.Mutex = false) (hfit : s.ScoresFit)
    (hA : s.PlayerA.CurrentChoice = ChoiceNegotiate ∨ s.PlayerA.CurrentChoice = ChoiceDefect)
    (hB : s.PlayerB.CurrentChoice = ChoiceNegotiate ∨ s.PlayerB.CurrentChoice = ChoiceDefect) :
    ∃ (msgs : String × String) (m' : Manager) (s' : Session) (dA dB : Int),
      m.ProcessRound now₁ now₂ a = .returned msgs m' ∧ m'.heap[a]? = some s' ∧
      (s.PlayerA.CurrentChoice = ChoiceNegotiate → s.PlayerB.CurrentChoice = ChoiceNegotiate →
        dA = 3 ∧ dB = 3) ∧
      (s.PlayerA.CurrentChoice = ChoiceNegotiate → s.PlayerB.CurrentChoice = ChoiceDefect →
        dA = 0 ∧ dB = 5) ∧
      (s.PlayerA.CurrentChoice = ChoiceDefect → s.PlayerB.CurrentChoice = ChoiceNegotiate →
        dA = 5 ∧ dB = 0) ∧
      (s.PlayerA.CurrentChoice = ChoiceDefect → s.PlayerB.CurrentChoice = ChoiceDefect →
        dA = 1 ∧ dB = 1) ∧
      s'.PlayerA.Score = s.PlayerA.Score + dA ∧ s'.PlayerB.Score = s.PlayerB.Score + dB ∧
      s'.History = s.History ++
        [{ Round := s.CurrentRound, PlayerAChoice := s.PlayerA.CurrentChoice,
           PlayerBChoice := s.PlayerB.CurrentChoice, PlayerAScore := dA, PlayerBScore := dB,
           Timestamp := now₁ }] ∧
      minInt ≤ s'.PlayerA.Score ∧ s'.PlayerA.Score ≤ maxInt ∧
      minInt ≤ s'.PlayerB.Score ∧ s'.PlayerB.Score ≤ maxInt := by
  have hnd := choice_negotiate_ne_defect
  have hdn : ChoiceDefect ≠ ChoiceNegotiate := fun e => hnd e.symm
  obtain ⟨hA₁, hA₂, hB₁, hB₂⟩ := hfit
  simp only [minInt, maxInt] at hA₁ hA₂ hB₁ hB₂ ⊢
  refine ⟨_, _, _,
    (roundOutcome s.PlayerA.CurrentChoice s.PlayerB.CurrentChoice s.PlayerA.Username
      s.PlayerB.Username).1,
    (roundOutcome s.PlayerA.CurrentChoice s.PlayerB.CurrentChoice s.PlayerA.Username
      s.PlayerB.Username).2.1,
    processRound_run now₁ now₂ h hfree, store_get_self _ h, ?_⟩
  rcases hA with hA | hA <;> rcases hB with hB | hB <;>
    by_cases hc : s.CurrentRound + 1 > s.TotalRounds <;>
    simp [Session.ProcessRound, roundOutcome, hA, hB, hc, hnd, hdn] <;>
    omega

theorem processRound_payoff_witness :
    ∃ (msgs : String × String) (m' : Manager) (s' : Session) (dA dB : Int),
      bothChose.ProcessRound 30 31 0 = .returned msgs m' ∧ m'.heap[0]? = some s' ∧
      (bothChoseSession.PlayerA.CurrentChoice = ChoiceNegotiate →
        bothChoseSession.PlayerB.CurrentChoice = ChoiceNegotiate → dA = 3 ∧ dB = 3) ∧
      (bothChoseSession.PlayerA.CurrentChoice = ChoiceNegotiate →
        bothChoseSession.PlayerB.CurrentChoice = ChoiceDefect → dA = 0 ∧ dB = 5) ∧
      (bothChoseSession.PlayerA.CurrentChoice = ChoiceDefect →
        bothChoseSession.PlayerB.CurrentChoice = ChoiceNegotiate → dA = 5 ∧ dB = 0) ∧
      (bothChoseSession.PlayerA.CurrentChoice = ChoiceDefect →
        bothChoseSession.PlayerB.CurrentChoice = ChoiceDefect → dA = 1 ∧ dB = 1) ∧
      s'.PlayerA.Score = bothChoseSession.PlayerA.Score + dA ∧
      s'.PlayerB.Score = bothChoseSession.PlayerB.Score + dB ∧
      s'.History = bothChoseSession.History ++
        [{ Round := bothChoseSession.CurrentRound,
           PlayerAChoice := bothChoseSession.PlayerA.CurrentChoice,
           PlayerBChoice := bothChoseSession.PlayerB.CurrentChoice, PlayerAScore := dA,
           PlayerBScore := dB, Timestamp := 30 }] ∧
      minInt ≤ s'.PlayerA.Score ∧ s'.PlayerA.Score ≤ maxInt ∧
      minInt ≤ s'.PlayerB.Score ∧ s'.PlayerB.Score ≤ maxInt :=
  processRound_payoff bothChose 0 bothChoseSession 30 31 (by decide) (by decide) (by decide)
    (by decide) (by decide)

/-- C4: when the lock of the session at `a` is free and its round index fits
(Go's `CurrentRound++` does not wrap around), `ProcessRound` returns and
leaves a session whose history is the old one with exactly one `RoundResult`
appended, whose two pending choices are none, whose round index is the old
one plus 1, a value of Go's `int`, and whose state is finished if the new
round index exceeds `TotalRounds` and the old state otherwise. -/
theorem processRound_advances (m : Manager) (a : Nat) (s : Session) (now₁ now₂ : Nat)
    (h : m.heap[a]? = some s) (hfree : s.Mutex = false) (hfit : s.RoundFits) :
    ∃ (msgs : String × String) (m' : Manager) (s' : Session) (r : RoundResult),
      m.ProcessRound now₁ now₂ a = .returned msgs m' ∧ m'.heap[a]? = some s' ∧
      s'.History = s.History ++ [r] ∧
      s'.PlayerA.CurrentChoice = ChoiceNone ∧ s'.PlayerB.CurrentChoice = ChoiceNone ∧
      s'.CurrentRound = s.CurrentRound + 1 ∧
      (s'.CurrentRound > s'.TotalRounds → s'.State = .StateFinished) ∧
      (¬ s'.CurrentRound > s'.TotalRounds → s'.State = s.State) ∧
      minInt ≤ s'.CurrentRound ∧ s'.CurrentRound ≤ maxInt := by
  obtain ⟨hR₁, hR₂, _, _⟩ := hfit
  simp only [minInt, maxInt] at hR₁ hR₂ ⊢
  refine ⟨_, _, _,
    { Round := s.CurrentRound, PlayerAChoice := s.PlayerA.CurrentChoice,
      PlayerBChoice := s.PlayerB.CurrentChoice,
      PlayerAScore := (roundOutcome s.PlayerA.CurrentChoice s.PlayerB.CurrentChoice
        s.PlayerA.Username s.PlayerB.Username).1,
      PlayerBScore := (roundOutcome s.PlayerA.CurrentChoice s.PlayerB.CurrentChoice
        s.PlayerA.Username s.PlayerB.Username).2.1,
      Timestamp := now₁ },
    processRound_run now₁ now₂ h hfree, store_get_self _ h, ?_⟩
  by_cases hc : s.CurrentRound + 1 > s.TotalRounds <;>
    simp [Session.ProcessRound, hc] <;>
    omega

theorem processRound_advances_witness :
    ∃ (msgs : String × String) (m' : Manager) (s' : Session) (r : RoundResult),
      bothChose.ProcessRound 30 31 0 = .returned msgs m' ∧ m'.heap[0]? = some s' ∧
      s'.History = bothChoseSession.History ++ [r] ∧
      s'.PlayerA.CurrentChoice = ChoiceNone ∧ s'.PlayerB.CurrentChoice = ChoiceNone ∧
      s'.CurrentRound = bothChoseSession.CurrentRound + 1 ∧
      (s'.CurrentRound > s'.TotalRounds → s'.State = .StateFinished) ∧
      (¬ s'.CurrentRound > s'.TotalRounds → s'.State = bothChoseSession.State) ∧
      minInt ≤ s'.CurrentRound ∧ s'.CurrentRound ≤ maxInt :=
  processRound_advances bothChose 0 bothChoseSession 30 31 (by decide) (by decide)
    (by decide)

/-! ## What the operations do to the heap -/

theorem andThen_state {α β : Type} (I : Manager → Prop) (o : Outcome α)
    (k : α → Manager → Outcome β) (ho : I o.state)
    (hk : ∀ v m', o = .returned v m' → I (k v m').state) : I (o.andThen k).state := by
  cases o with
  | returned v m' => exact hk v m' rfl
  | blocked m' => exact ho
  | panicked m' => exact ho

theorem all_of_heap {P : Session → Prop} {m m' : Manager} (h : m'.heap = m.heap)
    (hm : m.All P) : m'.All P := by
  intro s hs
  rw [h] at hs
  exact hm s hs

theorem all_store {P : Session → Prop} {m : Manager} (a : Nat) (s : Session) (hm : m.All P)
    (hs : P s) : (m.store a s).All P := by
  intro t ht
  rcases List.mem_or_eq_of_mem_set ht with h | h
  · exact hm t h
  · exact h ▸ hs

theorem all_alloc {P : Session → Prop} {m m' : Manager} (s : Session)
    (h : m'.heap = m.heap ++ [s]) (hm : m.All P) (hs : P s) : m'.All P := by
  intro t ht
  rw [h] at ht
  rcases List.mem_append.mp ht with h1 | h1
  · exact hm t h1
  · rw [List.mem_singleton.mp h1]; exact hs

theorem all_unlockSession {P : Session → Prop} (hP : Stable P) {m : Manager} (a : Nat)
    (hm : m.All P) : (m.unlockSession a).All P := by
  unfold Manager.unlockSession
  split
  · exact hm
  · next s hs => exact all_store a _ hm (hP.mutex s false (hm s (List.getElem?_mem hs)))

theorem lockSession_returned {m m' : Manager} {a : Nat} {s' : Session}
    (h : m.lockSession a = .returned s' m') :
    ∃ s, m.heap[a]? = some s ∧ s.Mutex = false ∧ s' = { s with Mutex := true }
      ∧ m' = m.store a { s with Mutex := true } := by
  unfold Manager.lockSession at h
  split at h
  · cases h
  · next s hs =>
    by_cases hmut : s.Mutex = true
    · simp [hmut] at h
    · simp [hmut] at h
      exact ⟨s, hs, by simpa using hmut, h.1.symm, h.2.symm⟩

theorem lockSession_state (m : Manager) (a : Nat) :
    (m.lockSession a).state = m ∨
      ∃ s, m.heap[a]? = some s ∧ s.Mutex = false ∧
        m.lockSession a = .returned { s with Mutex := true } (m.store a { s with Mutex := true }) := by
  unfold Manager.lockSession
  split
  · exact Or.inl rfl
  · next s hs =>
    by_cases hmut : s.Mutex = true
    · simp [hmut, Outcome.state]
    · right
      exact ⟨s, hs, by simpa using hmut, by simp [hmut]⟩

theorem all_lockSession {P : Session → Prop} (hP : Stable P) {m : Manager} (a : Nat)
    (hm : m.All P) : (m.lockSession a).state.All P := by
  rcases lockSession_state m a with h | ⟨s, hs, _, h⟩
  · rw [h]; exact hm
  · rw [h]
    exact all_store a _ hm (hP.mutex s true (hm s (List.getElem?_mem hs)))

theorem lock_heap {m m1 : Manager} (h : m.Lock = some m1) :
    m1.heap = m.heap ∧ m1.sessions = m.sessions ∧ m1.playerToSession = m.playerToSession
      ∧ m1.pendingByID = m.pendingByID := by
  unfold Manager.Lock at h
  split at h
  · cases h; exact ⟨rfl, rfl, rfl, rfl⟩
  · cases h

theorem rlock_heap {m m1 : Manager} (h : m.RLock = some m1) :
    m1.heap = m.heap ∧ m1.sessions = m.sessions ∧ m1.playerToSession = m.playerToSession
      ∧ m1.pendingByID = m.pendingByID := by
  unfold Manager.RLock at h
  split at h
  · cases h; exact ⟨rfl, rfl, rfl, rfl⟩
  · cases h

theorem find_state_heap (m : Manager) (playerID : Int) :
    (m.FindSessionByPlayerID playerID).state.heap = m.heap := by
  unfold Manager.FindSessionByPlayerID
  split
  · rfl
  · next m1 h1 =>
    have := (rlock_heap h1).1
    split <;> simpa [Outcome.state, Manager.RUnlock] using this

theorem clearTimer_state_heap (m : Manager) (sessionID : Int) :
    (m.clearTimer sessionID).state.heap = m.heap := by
  unfold Manager.clearTimer
  split
  · rfl
  · next m1 h1 => simpa [Outcome.state, Manager.Unlock] using (lock_heap h1).1

theorem clearPlayerSession_state_heap (m : Manager) (playerID : Int) :
    (m.ClearPlayerSession playerID).state.heap = m.heap := by
  unfold Manager.ClearPlayerSession
  split
  · rfl
  · next m1 h1 => simpa [Outcome.state, Manager.Unlock] using (lock_heap h1).1

theorem state_of_returned {α : Type} {o : Outcome α} {v : α} {m : Manager}
    (h : o = .returned v m) : o.state = m := by
  rw [h]; rfl

theorem endGame_state_heap (m : Manager) (now : Nat) (sessionID : Int) :
    (m.endGame now sessionID).state.heap = m.heap := by
  unfold Manager.endGame
  split
  · rfl
  · next m1 h1 =>
    have hm1 := (lock_heap h1).1
    split
    · simpa [Outcome.state, Manager.Unlock] using hm1
    · apply andThen_state (fun x => x.heap = m.heap)
      · rw [clearTimer_state_heap]; exact hm1
      · intro _ m2 h2
        have : m2.heap = m.heap := by
          rw [← state_of_returned h2, clearTimer_state_heap]; exact hm1
        simpa [Outcome.state, Manager.Unlock] using this

theorem all_createInvite {P : Session → Prop} (m : Manager) (rnd : Option (Nat → Fin 256))
    (inviterID : Int) (inviterUsername : String) (rounds : Int) (hm : m.All P) :
    (m.CreateInvite rnd inviterID inviterUsername rounds).state.All P := by
  unfold Manager.CreateInvite
  split
  · exact hm
  · next m1 h1 =>
    have hm1 := (lock_heap h1).1
    split
    · exact all_of_heap (by simpa [Outcome.state, Manager.Unlock] using hm1) hm
    · exact all_of_heap (by simpa [Outcome.state, Manager.Unlock] using hm1) hm

theorem all_acceptInvite {P : Session → Prop} (hP : Stable P) (m : Manager) (now : Nat)
    (inviteID : String) (accepterID : Int) (accepterUsername : String) (hm : m.All P) :
    (m.AcceptInvite now inviteID accepterID accepterUsername).state.All P := by
  unfold Manager.AcceptInvite
  split
  · exact hm
  · next m1 h1 =>
    have hm1 := (lock_heap h1).1
    split
    · exact all_of_heap (by simpa [Outcome.state, Manager.Unlock] using hm1) hm
    · next invite _ =>
      split
      · exact all_of_heap (by simpa [Outcome.state, Manager.Unlock] using hm1) hm
      · exact all_alloc (newSession invite accepterID accepterUsername now)
          (by simp [Outcome.state, Manager.Unlock, hm1]) hm (hP.fresh _ _ _ _)

theorem all_startRematch {P : Session → Prop} (hP : Stable P) (m : Manager) (now : Nat)
    (sessionID : Int) (hm : m.All P) : (m.StartRematch now sessionID).state.All P := by
  unfold Manager.StartRematch
  split
  · exact hm
  · next m1 h1 =>
    have hm1 := (lock_heap h1).1
    split
    · exact all_of_heap (by simpa [Outcome.state, Manager.Unlock] using hm1) hm
    · next old _ =>
      split
      · exact all_of_heap (by simpa [Outcome.state] using hm1) hm
      · next oldSession hold =>
        rw [hm1] at hold
        exact all_alloc (rematchSession oldSession now)
          (by simp [Outcome.state, Manager.Unlock, hm1]) hm
          (hP.rematch _ _ (hm _ (List.getElem?_mem hold)))

theorem heap_of_returned {α : Type} {o : Outcome α} {v : α} {m m' : Manager}
    (h : o = .returned v m') (hs : o.state.heap = m.heap) : m'.heap = m.heap := by
  rw [← state_of_returned h]; exact hs

theorem all_recordChoice {P : Session → Prop} (hP : Stable P) (m : Manager) (now : Nat)
    (playerID : Int) (choice : PlayerChoice) (hm : m.All P) :
    (m.RecordChoice now playerID choice).state.All P := by
  unfold Manager.RecordChoice
  apply andThen_state (Manager.All P)
  · exact all_of_heap (find_state_heap m playerID) hm
  · intro found m1 hfind
    have hm1 : m1.All P := all_of_heap (heap_of_returned hfind (find_state_heap m playerID)) hm
    cases found with
    | none => exact hm1
    | some a =>
      apply andThen_state (Manager.All P)
      · exact all_lockSession hP a hm1
      · intro session m2 hlock
        obtain ⟨s, hs, hmut, rfl, rfl⟩ := lockSession_returned hlock
        have hPl := hP.mutex s true (hm1 s (List.getElem?_mem hs))
        have hm2 := all_store a _ hm1 hPl
        have hm3 := all_store a (Session.setChoice { s with Mutex := true } playerID choice now)
          hm2 (hP.choice _ _ _ _ hPl)
        split
        · exact all_unlockSession hP a hm2
        · dsimp only
          split
          · apply andThen_state (Manager.All P)
            · exact all_of_heap (clearTimer_state_heap _ _) hm3
            · intro _ m4 h4
              exact all_unlockSession hP a
                (all_of_heap (heap_of_returned h4 (clearTimer_state_heap _ _)) hm3)
          · exact all_unlockSession hP a hm3

theorem all_forfeitGame {P : Session → Prop} (hP : Stable P) (m : Manager) (now : Nat)
    (playerID : Int) (hm : m.All P) : (m.ForfeitGame now playerID).state.All P := by
  unfold Manager.ForfeitGame
  apply andThen_state (Manager.All P)
  · exact all_of_heap (find_state_heap m playerID) hm
  · intro found m1 hfind
    have hm1 : m1.All P := all_of_heap (heap_of_returned hfind (find_state_heap m playerID)) hm
    cases found with
    | none => exact hm1
    | some a =>
      apply andThen_state (Manager.All P)
      · exact all_lockSession hP a hm1
      · intro session m2 hlock
        obtain ⟨s, hs, hmut, rfl, rfl⟩ := lockSession_returned hlock
        have hPl := hP.mutex s true (hm1 s (List.getElem?_mem hs))
        have hm2 := all_store a _ hm1 hPl
        have hm3 := all_store a { ({ s with Mutex := true } : Session) with State := .StateFinished }
          hm2 (hP.finished _ hPl)
        split
        · exact all_unlockSession hP a hm2
        · dsimp only
          apply andThen_state (Manager.All P)
          · exact all_of_heap (endGame_state_heap _ _ _) hm3
          · intro _ m4 h4
            exact all_unlockSession hP a
              (all_of_heap (heap_of_returned h4 (endGame_state_heap _ _ _)) hm3)

theorem all_setRematchPreference {P : Session → Prop} (hP : Stable P) (m : Manager)
    (playerID : Int) (wants : Bool) (hm : m.All P) :
    (m.SetRematchPreference playerID wants).state.All P := by
  unfold Manager.SetRematchPreference
  split
  · exact hm
  · next r1 h1 =>
    have hr1 : r1.RUnlock.All P := all_of_heap (rlock_heap h1).1 hm
    split
    · exact hr1
    · dsimp only
      split
      · exact hr1
      · next r2 h2 =>
        have hr2 : r2.RUnlock.All P := all_of_heap (rlock_heap h2).1 hr1
        try dsimp only
        split
        · exact hr2
        · next a _ =>
          apply andThen_state (Manager.All P)
          · exact all_lockSession hP a hr2
          · intro session m3 hlock
            obtain ⟨s, hs, hmut, rfl, rfl⟩ := lockSession_returned hlock
            have hPl := hP.mutex s true (hr2 s (List.getElem?_mem hs))
            have hm3 := all_store a _ hr2 hPl
            have hm4 := all_store a
              (Session.setWantsRematch { s with Mutex := true } playerID wants) hm3
              (hP.rematchFlag _ _ _ hPl)
            split
            · exact all_unlockSession hP a hm3
            · try dsimp only
              split
              · apply andThen_state (Manager.All P)
                · exact all_of_heap (clearPlayerSession_state_heap _ _) hm4
                · intro _ m5 h5
                  have hm5 : m5.All P :=
                    all_of_heap (heap_of_returned h5 (clearPlayerSession_state_heap _ _)) hm4
                  apply andThen_state (Manager.All P)
                  · exact all_of_heap (clearPlayerSession_state_heap _ _) hm5
                  · intro _ m6 h6
                    exact all_unlockSession hP a
                      (all_of_heap (heap_of_returned h6 (clearPlayerSession_state_heap _ _)) hm5)
              · exact all_unlockSession hP a hm4

theorem all_processRound {P : Session → Prop} (hP : Stable P) (m : Manager)
    (now₁ now₂ : Nat) (a : Nat) (hm : m.All P)
    (hr : ∀ s, m.heap[a]? = some s → P (s.ProcessRound now₁ now₂).1) :
    (m.ProcessRound now₁ now₂ a).state.All P := by
  unfold Manager.ProcessRound
  apply andThen_state (Manager.All P)
  · exact all_lockSession hP a hm
  · intro session m1 hlock
    obtain ⟨s, hs, hmut, rfl, rfl⟩ := lockSession_returned hlock
    have hPl := hP.mutex s true (hm s (List.getElem?_mem hs))
    dsimp only
    apply all_unlockSession hP a
    apply all_store a _ (all_store a _ hm hPl)
    rw [(processRound_mutex s now₁ now₂ true).1]
    exact hP.mutex _ true (hr s hs)

theorem forceDefect_mutex (s : Session) : s.forceDefect.1.Mutex = s.Mutex := by
  unfold Session.forceDefect
  split <;> rfl

theorem processRound_held {m : Manager} {a : Nat} {s : Session} (now₁ now₂ : Nat)
    (h : m.heap[a]? = some s) (hm : s.Mutex = true) :
    m.ProcessRound now₁ now₂ a = .blocked m := by
  simp [Manager.ProcessRound, lockSession_held h hm, Outcome.andThen]

theorem all_finishTimeout {P : Session → Prop} (hP : Stable P) (m : Manager) (a : Nat)
    (sessionID : Int) (side : Side) (hm : m.All P) :
    (m.finishTimeout a sessionID side).state.All P := by
  unfold Manager.finishTimeout
  split
  · exact hm
  · next session hs =>
    have hm1 := all_store a { session with State := .StateFinished } hm
      (hP.finished _ (hm _ (List.getElem?_mem hs)))
    apply andThen_state (Manager.All P)
    · exact all_of_heap (clearTimer_state_heap _ _) hm1
    · intro _ m1 h1
      exact all_unlockSession hP a
        (all_of_heap (heap_of_returned h1 (clearTimer_state_heap _ _)) hm1)

theorem all_handleTimeout {P : Session → Prop} (hP : Stable P) (m : Manager)
    (now₁ now₂ : Nat) (sessionID : Int) (hm : m.All P) :
    (m.HandleTimeout now₁ now₂ sessionID).state.All P := by
  unfold Manager.HandleTimeout
  apply andThen_state (Manager.All P)
  · exact all_of_heap (find_state_heap m sessionID) hm
  · intro found m1 hfind
    have hm1 : m1.All P := all_of_heap (heap_of_returned hfind (find_state_heap m sessionID)) hm
    cases found with
    | none => exact hm1
    | some a =>
      apply andThen_state (Manager.All P)
      · exact all_lockSession hP a hm1
      · intro session m2 hlock
        obtain ⟨s, hs, hmut, rfl, rfl⟩ := lockSession_returned hlock
        have hPl := hP.mutex s true (hm1 s (List.getElem?_mem hs))
        have hm2 := all_store a _ hm1 hPl
        have hm3 := all_store a (Session.forceDefect { s with Mutex := true }).1 hm2
          (hP.forced _ hPl)
        have hget : ((m1.store a { s with Mutex := true }).store a
            (Session.forceDefect { s with Mutex := true }).1).heap[a]?
              = some (Session.forceDefect { s with Mutex := true }).1 :=
          store_get_self _ (store_get_self _ hs)
        split
        · exact all_unlockSession hP a hm2
        · dsimp only
          split
          · rw [processRound_held now₁ now₂ hget (by rw [forceDefect_mutex])]
            exact hm3
          · exact all_finishTimeout hP _ a sessionID _ hm3

theorem andThen_returned {α β : Type} {o : Outcome α} {k : α → Manager → Outcome β} {v : β}
    {m' : Manager} (h : o.andThen k = .returned v m') :
    ∃ u m1, o = .returned u m1 ∧ k u m1 = .returned v m' := by
  cases o with
  | returned u m1 => exact ⟨u, m1, rfl, h⟩
  | blocked m1 => cases h
  | panicked m1 => cases h

theorem unlockSession_get {m : Manager} {a : Nat} {s : Session} (h : m.heap[a]? = some s) :
    (m.unlockSession a).heap[a]? = some { s with Mutex := false } := by
  simp only [Manager.unlockSession, h]
  exact store_get_self _ h

theorem setChoice_state (s : Session) (playerID : Int) (choice : PlayerChoice) (now : Nat) :
    (s.setChoice playerID choice now).State = s.State := by
  unfold Session.setChoice
  split <;> rfl

/-- After a successful `RecordChoice` the session it returns is in
progress. -/
theorem recordChoice_ok_inProgress {m m' : Manager} {now : Nat} {playerID : Int}
    {choice : PlayerChoice} {a : Nat} {b : Bool}
    (h : m.RecordChoice now playerID choice = .returned (.ok (a, b)) m') :
    ∃ s, m'.heap[a]? = some s ∧ s.State = .StateInProgress := by
  unfold Manager.RecordChoice at h
  obtain ⟨found, m1, _, h⟩ := andThen_returned h
  cases found with
  | none => cases h
  | some a₀ =>
    obtain ⟨session, m2, hlock, h⟩ := andThen_returned h
    obtain ⟨s, hs, hmut, rfl, rfl⟩ := lockSession_returned hlock
    have hget : ((m1.store a₀ { s with Mutex := true }).store a₀
        (Session.setChoice { s with Mutex := true } playerID choice now)).heap[a₀]?
          = some (Session.setChoice { s with Mutex := true } playerID choice now) :=
      store_get_self _ (store_get_self _ hs)
    split at h
    · cases h
    · next hstate =>
      have hst : s.State = .StateInProgress := by simpa using hstate
      dsimp only at h
      split at h
      · obtain ⟨_, m4, h4, h⟩ := andThen_returned h
        have hheap := heap_of_returned h4 (clearTimer_state_heap _ _)
        rw [← hheap] at hget
        injection h with hv hm
        injection hv with hv
        injection hv with ha hb
        subst ha hm
        exact ⟨_, unlockSession_get hget, by simp [setChoice_state, hst]⟩
      · injection h with hv hm
        injection hv with hv
        injection hv with ha hb
        subst ha hm
        exact ⟨_, unlockSession_get hget, by simp [setChoice_state, hst]⟩

theorem setTurnTimer_state_heap (m : Manager) (now : Nat) (sessionID : Int)
    (onTimeout : Callback) : (m.SetTurnTimer now sessionID onTimeout).state.heap = m.heap := by
  unfold Manager.SetTurnTimer
  split
  · rfl
  · next m1 h1 => simpa [Outcome.state, Manager.Unlock] using (lock_heap h1).1

theorem all_handleGameChoice {P : Session → Prop} (hP : Stable P) (m : Manager)
    (now now₁ now₂ now₃ : Nat) (playerID : Int) (choice : PlayerChoice) (hm : m.All P)
    (hr : ∀ s n₁ n₂, P s → s.State = .StateInProgress → P (s.ProcessRound n₁ n₂).1) :
    (handleGameChoice m now now₁ now₂ now₃ playerID choice).state.All P := by
  unfold handleGameChoice
  apply andThen_state (Manager.All P)
  · exact all_recordChoice hP m now playerID choice hm
  · intro r m1 hrec
    have hm1 : m1.All P := by
      rw [← state_of_returned hrec]; exact all_recordChoice hP m now playerID choice hm
    cases r with
    | error err => exact hm1
    | ok v =>
      obtain ⟨a, b⟩ := v
      cases b with
      | false => exact hm1
      | true =>
        obtain ⟨s, hs, hst⟩ := recordChoice_ok_inProgress hrec
        have hround : (m1.ProcessRound now₁ now₂ a).state.All P := by
          apply all_processRound hP m1 now₁ now₂ a hm1
          intro t ht
          rw [hs] at ht
          injection ht with ht
          subst ht
          exact hr _ _ _ (hm1 _ (List.getElem?_mem hs)) hst
        simp only [if_true]
        apply andThen_state (Manager.All P)
        · exact hround
        · intro _ m2 h2
          have hm2 : m2.All P := by
            rw [← state_of_returned h2]; exact hround
          split
          · exact hm2
          · split
            · exact hm2
            · apply andThen_state (Manager.All P)
              · exact all_of_heap (setTurnTimer_state_heap _ _ _ _) hm2
              · intro _ m3 h3
                exact all_of_heap (heap_of_returned h3 (setTurnTimer_state_heap _ _ _ _)) hm2

/-- Every call keeps a stable property that round resolution keeps too. -/
theorem all_run {P : Session → Prop} (hP : Stable P)
    (hr : ∀ s n₁ n₂, P s → P (s.ProcessRound n₁ n₂).1) (m : Manager) (c : Call)
    (hm : m.All P) : (m.run c).All P := by
  cases c with
  | CreateInvite rnd i u r => exact all_createInvite m rnd i u r hm
  | AcceptInvite now t i u => exact all_acceptInvite hP m now t i u hm
  | RecordChoice now p c => exact all_recordChoice hP m now p c hm
  | ProcessRound n₁ n₂ a =>
    exact all_processRound hP m n₁ n₂ a hm
      (fun s hs => hr s n₁ n₂ (hm s (List.getElem?_mem hs)))
  | HandleTimeout n₁ n₂ sid => exact all_handleTimeout hP m n₁ n₂ sid hm
  | ForfeitGame now p => exact all_forfeitGame hP m now p hm
  | SetRematchPreference p w => exact all_setRematchPreference hP m p w hm
  | StartRematch now sid => exact all_startRematch hP m now sid hm

/-- Every action of play keeps a stable property that round resolution keeps
on sessions in progress. -/
theorem all_act {P : Session → Prop} (hP : Stable P)
    (hr : ∀ s n₁ n₂, P s → s.State = .StateInProgress → P (s.ProcessRound n₁ n₂).1)
    (m : Manager) (c : Action) (hm : m.All P) : (m.act c).All P := by
  cases c with
  | CreateInvite rnd i u r => exact all_createInvite m rnd i u r hm
  | AcceptInvite now t i u => exact all_acceptInvite hP m now t i u hm
  | GameChoice now n₁ n₂ n₃ p c => exact all_handleGameChoice hP m now n₁ n₂ n₃ p c hm hr
  | HandleTimeout n₁ n₂ sid => exact all_handleTimeout hP m n₁ n₂ sid hm
  | ForfeitGame now p => exact all_forfeitGame hP m now p hm
  | SetRematchPreference p w => exact all_setRematchPreference hP m p w hm
  | StartRematch now sid => exact all_startRematch hP m now sid hm

/-! ## Invariants of the reachable states -/

theorem stable_scoresMatchHistory : Stable Session.ScoresMatchHistory where
  mutex := fun _ _ h => h
  choice := by
    intro s p c now h
    unfold Session.setChoice
    split <;> exact h
  rematchFlag := by
    intro s p w h
    unfold Session.setWantsRematch
    split <;> exact h
  finished := fun _ h => h
  forced := by
    intro s h
    unfold Session.forceDefect
    split <;> exact h
  fresh := by
    intro invite i u now
    simp [Session.ScoresMatchHistory, newSession]
  rematch := by
    intro old now _
    simp [Session.ScoresMatchHistory, rematchSession]

theorem processRound_scoresMatchHistory (s : Session) (now₁ now₂ : Nat)
    (h : s.ScoresMatchHistory) : (s.ProcessRound now₁ now₂).1.ScoresMatchHistory := by
  obtain ⟨hA, hB⟩ := h
  unfold Session.ProcessRound Session.ScoresMatchHistory
  by_cases hc : s.CurrentRound + 1 > s.TotalRounds <;> simp [hc, hA, hB]

theorem reachable_scoresMatchHistory {m : Manager} (hm : Reachable m) :
    m.All Session.ScoresMatchHistory := by
  induction hm with
  | fresh => intro t ht; simp [NewManager] at ht
  | call m c _ ih =>
    exact all_run stable_scoresMatchHistory processRound_scoresMatchHistory m c ih

/-- C2: in every state reachable from a fresh manager by calls of the eight
operations, every session object (those in the sessions table included) has
`PlayerA.Score` equal to the sum of `PlayerAScore` over its history and
`PlayerB.Score` equal to the sum of `PlayerBScore` over its history. -/
theorem score_is_sum_of_history (m : Manager) (hm : Reachable m) (s : Session)
    (hs : s ∈ m.heap) :
    s.PlayerA.Score = (s.History.map (·.PlayerAScore)).sum ∧
      s.PlayerB.Score = (s.History.map (·.PlayerBScore)).sum := by
  exact reachable_scoresMatchHistory hm s hs

theorem played_reachable : Reachable played :=
  Reachable.call _ (.ProcessRound 30 31 0)
    (Reachable.call _ (.RecordChoice 20 2 ChoiceNegotiate)
      (Reachable.call _ (.RecordChoice 10 1 ChoiceDefect)
        (Reachable.call _ (.AcceptInvite 0 zeroToken 2 "bob")
          (Reachable.call _ (.CreateInvite (some fun _ => 0) 1 "alice" 3) Reachable.fresh))))

theorem score_is_sum_of_history_witness :
    Reachable played ∧ playedSession ∈ played.heap ∧
      playedSession.PlayerA.Score = (playedSession.History.map (·.PlayerAScore)).sum ∧
      playedSession.PlayerB.Score = (playedSession.History.map (·.PlayerBScore)).sum :=
  ⟨played_reachable, by decide,
    score_is_sum_of_history played played_reachable playedSession (by decide)⟩

theorem stable_roundsBounded : Stable Session.RoundsBounded where
  mutex := fun _ _ h => h
  choice := by
    intro s p c now h
    unfold Session.setChoice
    split <;> exact h
  rematchFlag := by
    intro s p w h
    unfold Session.setWantsRematch
    split <;> exact h
  finished := by
    intro s h hpos
    obtain ⟨h1, h2, _⟩ := h hpos
    exact ⟨h1, h2, fun _ => rfl⟩
  forced := by
    intro s h
    unfold Session.forceDefect
    split <;> exact h
  fresh := by
    intro invite i u now hpos
    simp only [newSession] at hpos ⊢
    refine ⟨by simp, by omega, fun h => by omega⟩
  rematch := by
    intro old now _ hpos
    simp only [rematchSession] at hpos ⊢
    refine ⟨by simp, by omega, fun h => by omega⟩

theorem processRound_roundsBounded (s : Session) (now₁ now₂ : Nat) (h : s.RoundsBounded)
    (hst : s.State = .StateInProgress) : (s.ProcessRound now₁ now₂).1.RoundsBounded := by
  unfold Session.ProcessRound
  by_cases hc : s.CurrentRound + 1 > s.TotalRounds
  · simp only [hc, if_true]
    intro hpos
    obtain ⟨h1, h2, h3⟩ := h hpos
    have hne : s.CurrentRound ≠ s.TotalRounds + 1 := by
      intro e
      rw [h3 e] at hst
      cases hst
    refine ⟨?_, ?_, fun _ => rfl⟩
    · simp only [List.length_append, List.length_singleton]; push_cast; omega
    · show s.CurrentRound + 1 ≤ s.TotalRounds + 1
      omega
  · simp only [hc, if_false]
    intro hpos
    obtain ⟨h1, h2, h3⟩ := h hpos
    refine ⟨?_, ?_, ?_⟩
    · simp only [List.length_append, List.length_singleton]; push_cast; omega
    · show s.CurrentRound + 1 ≤ s.TotalRounds + 1
      omega
    · intro e
      exact absurd (show s.CurrentRound + 1 = s.TotalRounds + 1 from e) (by omega)

theorem reachableByPlay_roundsBounded {m : Manager} (hm : ReachableByPlay m) :
    m.All Session.RoundsBounded := by
  induction hm with
  | fresh => intro t ht; simp [NewManager] at ht
  | act m c _ ih =>
    exact all_act stable_roundsBounded processRound_roundsBounded m c ih

theorem reachableInPlay_roundsBounded {m : Manager} (hm : ReachableInPlay m) :
    m.All Session.RoundsBounded := by
  induction hm with
  | fresh => intro t ht; simp [NewManager] at ht
  | call m c _ hg ih =>
    cases c with
    | CreateInvite rnd i u r => exact all_createInvite m rnd i u r ih
    | AcceptInvite now t i u => exact all_acceptInvite stable_roundsBounded m now t i u ih
    | RecordChoice now p c => exact all_recordChoice stable_roundsBounded m now p c ih
    | ProcessRound n₁ n₂ a =>
      exact all_processRound stable_roundsBounded m n₁ n₂ a ih
        (fun s hs =>
          processRound_roundsBounded s n₁ n₂ (ih s (List.getElem?_mem hs)) (hg s hs))
    | HandleTimeout n₁ n₂ sid => exact all_handleTimeout stable_roundsBounded m n₁ n₂ sid ih
    | ForfeitGame now p => exact all_forfeitGame stable_roundsBounded m now p ih
    | SetRematchPreference p w =>
      exact all_setRematchPreference stable_roundsBounded m p w ih
    | StartRematch now sid => exact all_startRematch stable_roundsBounded m now sid ih

theorem resolvedTwice_reachable : Reachable resolvedTwice :=
  Reachable.call _ (.ProcessRound 32 33 0)
    (Reachable.call _ (.ProcessRound 30 31 0)
      (Reachable.call _ (.RecordChoice 25 1 ChoiceNegotiate)
        (Reachable.call _ (.RecordChoice 20 2 ChoiceNegotiate)
          (Reachable.call _ (.RecordChoice 10 1 ChoiceNegotiate)
            (Reachable.call _ (.AcceptInvite 0 zeroToken 2 "bob")
              (Reachable.call _ (.CreateInvite (some fun _ => 0) 1 "alice" 1)
                Reachable.fresh))))))

/-- C10 (as stated, refuted): in a match of one round, player 1 submits,
player 2 submits and player 1 submits again; the second and the third
`RecordChoice` both return `bothChose = true`.  `ProcessRound` called once for
each of these two returns leaves the session, whose `TotalRounds` is 1, with
two entries in its history. -/
theorem second_resolution_exceeds_total :
    Reachable resolvedTwice ∧
      recordChoices startedShort
          [(10, 1, ChoiceNegotiate), (20, 2, ChoiceNegotiate), (25, 1, ChoiceNegotiate)]
        = [some false, some true, some true] ∧
      (playedShort.heap[0]?).map (fun s => (s.TotalRounds, s.History.length, s.State))
        = some (1, 1, .StateFinished) ∧
      (resolvedTwice.heap[0]?).map (fun s => (s.TotalRounds, s.History.length, s.State))
        = some (1, 2, .StateFinished) :=
  ⟨resolvedTwice_reachable, by decide, by decide, by decide⟩

/-- C10 (amended): in every state reachable from a fresh manager by calls of
the operations in which `ProcessRound` is only called for a session in
progress, and in every state reachable by the calls the handlers make
(`handleGameChoice` for the moves), every session object whose round count is
positive has at most `TotalRounds` entries in its history, and is finished
when it has exactly `TotalRounds` of them. -/
theorem history_within_total (m : Manager) (hm : ReachableInPlay m ∨ ReachableByPlay m)
    (s : Session) (hs : s ∈ m.heap) (hpos : 0 < s.TotalRounds) :
    (s.History.length : Int) ≤ s.TotalRounds ∧
      ((s.History.length : Int) = s.TotalRounds → s.State = .StateFinished) := by
  have hall : m.All Session.RoundsBounded :=
    hm.elim reachableInPlay_roundsBounded reachableByPlay_roundsBounded
  obtain ⟨h1, h2, h3⟩ := hall s hs hpos
  exact ⟨by omega, fun e => h3 (by omega)⟩

theorem shortMatch_reachable : ReachableByPlay shortMatch :=
  ReachableByPlay.act _ (.GameChoice 20 30 31 32 2 ChoiceNegotiate)
    (ReachableByPlay.act _ (.GameChoice 10 30 31 32 1 ChoiceNegotiate)
      (ReachableByPlay.act _ (.AcceptInvite 0 zeroToken 2 "bob")
        (ReachableByPlay.act _ (.CreateInvite (some fun _ => 0) 1 "alice" 1)
          ReachableByPlay.fresh)))

theorem playedShort_reachable : ReachableInPlay playedShort := by
  refine ReachableInPlay.call _ (.ProcessRound 30 31 0)
    (ReachableInPlay.call _ (.RecordChoice 20 2 ChoiceNegotiate)
      (ReachableInPlay.call _ (.RecordChoice 10 1 ChoiceNegotiate)
        (ReachableInPlay.call _ (.AcceptInvite 0 zeroToken 2 "bob")
          (ReachableInPlay.call _ (.CreateInvite (some fun _ => 0) 1 "alice" 1)
            ReachableInPlay.fresh trivial) trivial) trivial) trivial) ?_
  intro s hs
  have hst : (((startedShort.run (.RecordChoice 10 1 ChoiceNegotiate)).run
      (.RecordChoice 20 2 ChoiceNegotiate)).heap[0]?).map (·.State)
      = some .StateInProgress := by decide
  have hs' : (((startedShort.run (.RecordChoice 10 1 ChoiceNegotiate)).run
      (.RecordChoice 20 2 ChoiceNegotiate)).heap[0]?) = some s := hs
  rw [hs'] at hst
  exact Option.some.inj hst

theorem history_within_total_witness :
    (ReachableInPlay playedShort ∨ ReachableByPlay playedShort) ∧
      shortMatchSession ∈ playedShort.heap ∧
      0 < shortMatchSession.TotalRounds ∧
      (shortMatchSession.History.length : Int) ≤ shortMatchSession.TotalRounds ∧
      ((shortMatchSession.History.length : Int) = shortMatchSession.TotalRounds →
        shortMatchSession.State = .StateFinished) :=
  ⟨Or.inl playedShort_reachable, by decide, by decide,
    history_within_total playedShort (Or.inl playedShort_reachable) shortMatchSession
      (by decide) (by decide)⟩

/-- C3: the state `doubleBooked` is reached from a fresh manager by two
`CreateInvite` and two `AcceptInvite` calls, each accepter being absent from
the player-to-session index when accepting; in it player 2 is `PlayerB` of the
in-progress session stored under key 1 and `PlayerA` of the in-progress
session stored under key 2. -/
theorem doubleBooked_two_live_sessions :
    ReachableChecked doubleBooked ∧
      ∃ a b s t, doubleBooked.sessions 1 = some a ∧ doubleBooked.sessions 2 = some b ∧
        a ≠ b ∧ doubleBooked.heap[a]? = some s ∧ doubleBooked.heap[b]? = some t ∧
        s.State = .StateInProgress ∧ t.State = .StateInProgress ∧
        s.PlayerB.ID = 2 ∧ t.PlayerA.ID = 2 := by
  constructor
  · refine ReachableChecked.call _ (.AcceptInvite 5 oneToken 3 "carol")
      (ReachableChecked.call _ (.AcceptInvite 0 zeroToken 2 "bob")
        (ReachableChecked.call _ (.CreateInvite (some fun _ => 1) 2 "bob" 3)
          (ReachableChecked.call _ (.CreateInvite (some fun _ => 0) 1 "alice" 3)
            ReachableChecked.fresh trivial) trivial) ?_) ?_
    · show Manager.playerToSession _ 2 = none
      decide
    · show Manager.playerToSession _ 3 = none
      decide
  · exact ⟨0, 1, newSession ⟨zeroToken, 1, "alice", 3⟩ 2 "bob" 0,
      newSession ⟨oneToken, 2, "bob", 3⟩ 3 "carol" 5, by decide, by decide, by decide,
      by decide, by decide, rfl, rfl, rfl, rfl⟩

/-! ## Invite acceptance -/

theorem lock_free {m : Manager} (hmu : m.mu = {}) :
    m.Lock = some { m with mu := { writer := true, readers := 0 } } := by
  obtain ⟨heap, sessions, pending, index, mu, timers, routines⟩ := m
  simp only at hmu
  subst hmu
  simp [Manager.Lock]

theorem find_free {m : Manager} (hmu : m.mu = {}) (playerID : Int) :
    m.FindSessionByPlayerID playerID
      = .returned ((m.playerToSession playerID).bind m.sessions) m := by
  obtain ⟨heap, sessions, pending, index, mu, timers, routines⟩ := m
  simp only at hmu
  subst hmu
  simp only [Manager.FindSessionByPlayerID, Manager.RLock, Manager.RUnlock]
  cases h : index playerID <;> simp [h]

theorem acceptInvite_unknown {m : Manager} (hmu : m.mu = {}) (now : Nat) (inviteID : String)
    (accepterID : Int) (accepterUsername : String) (h : m.pendingByID inviteID = none) :
    m.AcceptInvite now inviteID accepterID accepterUsername
      = .returned (.error "это приглашение недействительно или истекло") m := by
  obtain ⟨heap, sessions, pending, index, mu, timers, routines⟩ := m
  simp only at hmu h
  subst hmu
  simp [Manager.AcceptInvite, Manager.Lock, Manager.Unlock, h]

theorem acceptInvite_own {m : Manager} (hmu : m.mu = {}) (now : Nat) (inviteID : String)
    (accepterID : Int) (accepterUsername : String) (invite : PendingInvite)
    (h : m.pendingByID inviteID = some invite) (hown : invite.InviterID = accepterID) :
    m.AcceptInvite now inviteID accepterID accepterUsername
      = .returned (.error "вы не можете принять собственное приглашение") m := by
  obtain ⟨heap, sessions, pending, index, mu, timers, routines⟩ := m
  simp only at hmu h
  subst hmu
  simp [Manager.AcceptInvite, Manager.Lock, Manager.Unlock, h, hown]

theorem acceptInvite_other {m : Manager} (hmu : m.mu = {}) (now : Nat) (inviteID : String)
    (accepterID : Int) (accepterUsername : String) (invite : PendingInvite)
    (h : m.pendingByID inviteID = some invite) (hne : invite.InviterID ≠ accepterID) :
    m.AcceptInvite now inviteID accepterID accepterUsername
      = .returned (.ok m.heap.length)
          { m with
            heap := m.heap ++ [newSession invite accepterID accepterUsername now]
            sessions := mapSet m.sessions invite.InviterID m.heap.length
            playerToSession :=
              mapSet (mapSet m.playerToSession invite.InviterID invite.InviterID)
                accepterID invite.InviterID
            pendingByID := mapDelete m.pendingByID inviteID } := by
  obtain ⟨heap, sessions, pending, index, mu, timers, routines⟩ := m
  simp only at hmu h
  subst hmu
  simp [Manager.AcceptInvite, Manager.Lock, Manager.Unlock, h, hne, newSession]

/-- C5: when the manager lock is free, the token is in the invite table and
the accepter is not the inviter, `AcceptInvite` returns a session that is in
progress, at round 1, with empty history, both scores 0, both pending choices
none, the invite's round count, the inviter as `PlayerA` and the accepter as
`PlayerB`, and a deadline two minutes ahead; afterwards
`FindSessionByPlayerID` finds that session for both players, the token is gone
from the invite table, and any further `AcceptInvite` with that token returns
an error. -/
theorem acceptInvite_creates_session (m : Manager) (now : Nat) (inviteID : String)
    (accepterID : Int) (accepterUsername : String) (invite : PendingInvite)
    (hmu : m.mu = {}) (h : m.pendingByID inviteID = some invite)
    (hne : invite.InviterID ≠ accepterID) :
    ∃ (a : Nat) (m' : Manager) (s : Session),
      m.AcceptInvite now inviteID accepterID accepterUsername = .returned (.ok a) m' ∧
      m'.heap[a]? = some s ∧
      s.State = .StateInProgress ∧ s.CurrentRound = 1 ∧ s.History = [] ∧
      s.PlayerA.Score = 0 ∧ s.PlayerB.Score = 0 ∧
      s.PlayerA.CurrentChoice = ChoiceNone ∧ s.PlayerB.CurrentChoice = ChoiceNone ∧
      s.TotalRounds = invite.Rounds ∧
      s.PlayerA.ID = invite.InviterID ∧ s.PlayerA.Username = invite.InviterUsername ∧
      s.PlayerB.ID = accepterID ∧ s.PlayerB.Username = accepterUsername ∧
      s.TurnDeadline = now + twoMinutes ∧
      m'.FindSessionByPlayerID invite.InviterID = .returned (some a) m' ∧
      m'.FindSessionByPlayerID accepterID = .returned (some a) m' ∧
      m'.pendingByID inviteID = none ∧
      ∀ (now' : Nat) (accepterID' : Int) (accepterUsername' : String),
        ∃ err, m'.AcceptInvite now' inviteID accepterID' accepterUsername'
          = .returned (.error err) m' := by
  have hmu' : ({ m with
      heap := m.heap ++ [newSession invite accepterID accepterUsername now]
      sessions := mapSet m.sessions invite.InviterID m.heap.length
      playerToSession :=
        mapSet (mapSet m.playerToSession invite.InviterID invite.InviterID)
          accepterID invite.InviterID
      pendingByID := mapDelete m.pendingByID inviteID } : Manager).mu = {} := hmu
  refine ⟨_, _, newSession invite accepterID accepterUsername now,
    acceptInvite_other hmu now inviteID accepterID accepterUsername invite h hne, ?_,
    rfl, rfl, rfl, rfl, rfl, rfl, rfl, rfl, rfl, rfl, rfl, rfl, rfl, ?_, ?_, ?_, ?_⟩
  · simp
  · rw [find_free hmu']
    simp [mapSet, hne]
  · rw [find_free hmu']
    simp [mapSet]
  · simp [mapDelete]
  · intro now' accepterID' accepterUsername'
    exact ⟨_, acceptInvite_unknown hmu' now' inviteID accepterID' accepterUsername'
      (by simp [mapDelete])⟩

theorem acceptInvite_creates_session_witness :
    ∃ (a : Nat) (m' : Manager) (s : Session),
      invited.AcceptInvite 0 zeroToken 2 "bob" = .returned (.ok a) m' ∧
      m'.heap[a]? = some s ∧
      s.State = .StateInProgress ∧ s.CurrentRound = 1 ∧ s.History = [] ∧
      s.PlayerA.Score = 0 ∧ s.PlayerB.Score = 0 ∧
      s.PlayerA.CurrentChoice = ChoiceNone ∧ s.PlayerB.CurrentChoice = ChoiceNone ∧
      s.TotalRounds = (3 : Int) ∧
      s.PlayerA.ID = (1 : Int) ∧ s.PlayerA.Username = "alice" ∧
      s.PlayerB.ID = 2 ∧ s.PlayerB.Username = "bob" ∧
      s.TurnDeadline = 0 + twoMinutes ∧
      m'.FindSessionByPlayerID 1 = .returned (some a) m' ∧
      m'.FindSessionByPlayerID 2 = .returned (some a) m' ∧
      m'.pendingByID zeroToken = none ∧
      ∀ (now' : Nat) (accepterID' : Int) (accepterUsername' : String),
        ∃ err, m'.AcceptInvite now' zeroToken accepterID' accepterUsername'
          = .returned (.error err) m' :=
  acceptInvite_creates_session invited 0 zeroToken 2 "bob" ⟨zeroToken, 1, "alice", 3⟩
    (by decide) (by decide) (by decide)

/-- C6: when the manager lock is free, `AcceptInvite` returns; it returns an
error exactly when the token is not in the invite table or the accepter is the
invite's inviter; and a call that returns an error leaves the whole manager
state as it was (invite table, sessions table and player-to-session index
included). -/
theorem acceptInvite_error_iff (m : Manager) (now : Nat) (inviteID : String)
    (accepterID : Int) (accepterUsername : String) (hmu : m.mu = {}) :
    (∃ r m', m.AcceptInvite now inviteID accepterID accepterUsername = .returned r m') ∧
    ((∃ err m', m.AcceptInvite now inviteID accepterID accepterUsername
          = .returned (.error err) m') ↔
      (m.pendingByID inviteID = none ∨
        ∃ invite, m.pendingByID inviteID = some invite ∧ invite.InviterID = accepterID)) ∧
    (∀ err m', m.AcceptInvite now inviteID accepterID accepterUsername
        = .returned (.error err) m' → m' = m) := by
  cases h : m.pendingByID inviteID with
  | none =>
    have e := acceptInvite_unknown hmu now inviteID accepterID accepterUsername h
    rw [e]
    refine ⟨⟨_, _, rfl⟩, ⟨fun _ => Or.inl rfl, fun _ => ⟨_, _, rfl⟩⟩, ?_⟩
    intro err m' he
    injection he with _ hm
    exact hm.symm
  | some invite =>
    by_cases hown : invite.InviterID = accepterID
    · have e := acceptInvite_own hmu now inviteID accepterID accepterUsername invite h hown
      rw [e]
      refine ⟨⟨_, _, rfl⟩, ⟨fun _ => Or.inr ⟨invite, rfl, hown⟩, fun _ => ⟨_, _, rfl⟩⟩, ?_⟩
      intro err m' he
      injection he with _ hm
      exact hm.symm
    · have e := acceptInvite_other hmu now inviteID accepterID accepterUsername invite h hown
      rw [e]
      refine ⟨⟨_, _, rfl⟩, ⟨?_, ?_⟩, ?_⟩
      · rintro ⟨err, m', he⟩
        injection he with hv _
        cases hv
      · rintro (hc | ⟨inv, hi, ho⟩)
        · cases hc
        · injection hi with hi
          subst hi
          exact absurd ho hown
      · intro err m' he
        injection he with hv _
        cases hv

theorem acceptInvite_error_iff_witness :
    (∃ r m', invited.AcceptInvite 0 zeroToken 1 "alice" = .returned r m') ∧
    ((∃ err m', invited.AcceptInvite 0 zeroToken 1 "alice" = .returned (.error err) m') ↔
      (invited.pendingByID zeroToken = none ∨
        ∃ invite, invited.pendingByID zeroToken = some invite ∧ invite.InviterID = 1)) ∧
    (∀ err m', invited.AcceptInvite 0 zeroToken 1 "alice" = .returned (.error err) m' →
      m' = invited) :=
  acceptInvite_error_iff invited 0 zeroToken 1 "alice" (by decide)

/-! ## Move submission -/

theorem clearTimer_free {m : Manager} (hmu : m.mu = {}) (sessionID : Int) :
    m.clearTimer sessionID
      = .returned () { m with timerCallbacks := mapDelete m.timerCallbacks sessionID } := by
  obtain ⟨heap, sessions, pending, index, mu, timers, routines⟩ := m
  simp only at hmu
  subst hmu
  simp [Manager.clearTimer, Manager.Lock, Manager.Unlock]

theorem unlockSession_eq {m : Manager} {a : Nat} {s : Session} (h : m.heap[a]? = some s) :
    m.unlockSession a = m.store a { s with Mutex := false } := by
  simp [Manager.unlockSession, h]

theorem setChoice_locked (s : Session) (playerID : Int) (choice : PlayerChoice) (now : Nat)
    (b : Bool) :
    Session.setChoice { s with Mutex := b } playerID choice now
      = { s.setChoice playerID choice now with Mutex := b } := by
  unfold Session.setChoice
  split <;> rfl

theorem setChoice_mutex (s : Session) (playerID : Int) (choice : PlayerChoice) (now : Nat) :
    (s.setChoice playerID choice now).Mutex = s.Mutex := by
  unfold Session.setChoice
  split <;> rfl

theorem setChoice_id (s : Session) (playerID : Int) (choice : PlayerChoice) (now : Nat) :
    (s.setChoice playerID choice now).ID = s.ID := by
  unfold Session.setChoice
  split <;> rfl

theorem session_mutex_eta (s : Session) : { s with Mutex := s.Mutex } = s := rfl

/-- What `RecordChoice` does when no lock is held and the player's session is
in progress. -/
theorem recordChoice_run {m : Manager} {a : Nat} {s : Session} (now : Nat) (playerID : Int)
    (choice : PlayerChoice) (hmu : m.mu = {})
    (hfind : (m.playerToSession playerID).bind m.sessions = some a)
    (hs : m.heap[a]? = some s) (hmut : s.Mutex = false) (hst : s.State = .StateInProgress) :
    m.RecordChoice now playerID choice
      = .returned (.ok (a, (s.setChoice playerID choice now).bothPlayersChose))
          (if (s.setChoice playerID choice now).bothPlayersChose then
            { m.store a (s.setChoice playerID choice now) with
              timerCallbacks := mapDelete m.timerCallbacks s.ID }
          else m.store a (s.setChoice playerID choice now)) := by
  have hunlocked : ({ s.setChoice playerID choice now with Mutex := false } : Session)
      = s.setChoice playerID choice now := by
    rw [← hmut, ← setChoice_mutex s playerID choice now]
  have hget := store_get_self
    ({ s.setChoice playerID choice now with Mutex := true } : Session)
    (store_get_self ({ s with Mutex := true } : Session) hs)
  have hboth : Session.bothPlayersChose { s.setChoice playerID choice now with Mutex := true }
      = (s.setChoice playerID choice now).bothPlayersChose := rfl
  unfold Manager.RecordChoice
  rw [find_free hmu, hfind]
  simp only [Outcome.andThen]
  rw [lockSession_free hs hmut]
  simp only []
  split
  · next h => exact absurd hst h
  · rw [setChoice_locked, store_store, hboth]
    have hs1 := store_get_self
      ({ s.setChoice playerID choice now with Mutex := true } : Session) hs
    have hmu1 : (m.store a { s.setChoice playerID choice now with Mutex := true }).mu = {} :=
      hmu
    by_cases hb : (s.setChoice playerID choice now).bothPlayersChose = true
    · rw [if_pos hb, if_pos hb, clearTimer_free hmu1, hb]
      simp only []
      have hs2 : ({ m.store a { s.setChoice playerID choice now with Mutex := true } with
          timerCallbacks := mapDelete
            (m.store a { s.setChoice playerID choice now with Mutex := true }).timerCallbacks
            (s.setChoice playerID choice now).ID } : Manager).heap[a]?
          = some { s.setChoice playerID choice now with Mutex := true } := hs1
      rw [unlockSession_eq hs2]
      simp only [Manager.store, List.set_set, hunlocked]
      simp only [setChoice_id]
    · rw [if_neg hb, if_neg hb, unlockSession_eq hs1, store_store]
      simp only [hunlocked]
      simp only [Bool.not_eq_true] at hb
      rw [hb]

theorem recordChoice_none {m : Manager} (now : Nat) (playerID : Int) (choice : PlayerChoice)
    (hmu : m.mu = {}) (hfind : (m.playerToSession playerID).bind m.sessions = none) :
    m.RecordChoice now playerID choice = .returned (.error "активная игра не найдена") m := by
  simp only [Manager.RecordChoice, find_free hmu, hfind, Outcome.andThen]

theorem recordChoice_notInProgress {m : Manager} {a : Nat} {s : Session} (now : Nat)
    (playerID : Int) (choice : PlayerChoice) (hmu : m.mu = {})
    (hfind : (m.playerToSession playerID).bind m.sessions = some a)
    (hs : m.heap[a]? = some s) (hmut : s.Mutex = false) (hst : s.State ≠ .StateInProgress) :
    m.RecordChoice now playerID choice = .returned (.error "игра не в процессе") m := by
  simp only [Manager.RecordChoice, find_free hmu, hfind, Outcome.andThen,
    lockSession_free hs hmut, hst, ne_eq, not_false_eq_true, if_true,
    unlockSession_store _ hs]
  rw [← hmut, session_mutex_eta, store_same hs]

theorem found_of_find {m : Manager} {playerID : Int} {found : Option Nat} (hmu : m.mu = {})
    (hfind : m.FindSessionByPlayerID playerID = .returned found m) :
    (m.playerToSession playerID).bind m.sessions = found := by
  rw [find_free hmu] at hfind
  injection hfind

/-- C7: when no lock is held, `RecordChoice(playerID, choice)` returns; it
returns an error exactly when `FindSessionByPlayerID` finds no session for
`playerID` or the session it finds is not in progress; and a call that returns
an error leaves the whole manager state, every session object included, as it
was. -/
theorem recordChoice_error_iff (m : Manager) (now : Nat) (playerID : Int)
    (choice : PlayerChoice) (found : Option Nat) (hmu : m.mu = {})
    (hfind : m.FindSessionByPlayerID playerID = .returned found m)
    (hvalid : ∀ a, found = some a → ∃ s, m.heap[a]? = some s ∧ s.Mutex = false) :
    (∃ r m', m.RecordChoice now playerID choice = .returned r m') ∧
    ((∃ err m', m.RecordChoice now playerID choice = .returned (.error err) m') ↔
      (found = none ∨
        ∃ a s, found = some a ∧ m.heap[a]? = some s ∧ s.State ≠ .StateInProgress)) ∧
    (∀ err m', m.RecordChoice now playerID choice = .returned (.error err) m' → m' = m) := by
  have hf := found_of_find hmu hfind
  cases found with
  | none =>
    rw [recordChoice_none now playerID choice hmu hf]
    refine ⟨⟨_, _, rfl⟩, ⟨fun _ => Or.inl rfl, fun _ => ⟨_, _, rfl⟩⟩, ?_⟩
    intro err m' he
    injection he with _ hm
    exact hm.symm
  | some a =>
    obtain ⟨s, hs, hmut⟩ := hvalid a rfl
    by_cases hst : s.State = .StateInProgress
    · rw [recordChoice_run now playerID choice hmu hf hs hmut hst]
      refine ⟨⟨_, _, rfl⟩, ⟨?_, ?_⟩, ?_⟩
      · rintro ⟨err, m', he⟩
        injection he with hv _
        cases hv
      · rintro (hc | ⟨a', s', ha', hs', hst'⟩)
        · cases hc
        · injection ha' with ha'
          subst ha'
          rw [hs] at hs'
          injection hs' with hs'
          subst hs'
          exact absurd hst hst'
      · intro err m' he
        injection he with hv _
        cases hv
    · rw [recordChoice_notInProgress now playerID choice hmu hf hs hmut hst]
      refine ⟨⟨_, _, rfl⟩, ⟨fun _ => Or.inr ⟨a, s, rfl, hs, hst⟩, fun _ => ⟨_, _, rfl⟩⟩, ?_⟩
      intro err m' he
      injection he with _ hm
      exact hm.symm

theorem recordChoice_error_iff_witness :
    (∃ r m', started.RecordChoice 10 7 ChoiceDefect = .returned r m') ∧
    ((∃ err m', started.RecordChoice 10 7 ChoiceDefect = .returned (.error err) m') ↔
      ((none : Option Nat) = none ∨
        ∃ a s, (none : Option Nat) = some a ∧ started.heap[a]? = some s ∧
          s.State ≠ .StateInProgress)) ∧
    (∀ err m', started.RecordChoice 10 7 ChoiceDefect = .returned (.error err) m' →
      m' = started) :=
  recordChoice_error_iff started 10 7 ChoiceDefect none (by decide)
    (find_free (by decide) 7) (fun a h => by cases h)

theorem setChoice_cases (s : Session) (playerID : Int) (choice : PlayerChoice) (now : Nat) :
    (playerID = s.PlayerB.ID ∧
        s.setChoice playerID choice now
          = { s with
              PlayerB := { s.PlayerB with CurrentChoice := choice, LastMoveTime := now } }) ∨
      (playerID ≠ s.PlayerB.ID ∧
        s.setChoice playerID choice now
          = { s with
              PlayerA := { s.PlayerA with CurrentChoice := choice, LastMoveTime := now } }) := by
  unfold Session.setChoice
  by_cases h : playerID = s.PlayerB.ID
  · exact Or.inl ⟨h, by simp [h]⟩
  · exact Or.inr ⟨h, by simp [h]⟩

/-- C8: when no lock is held and `playerID` is the ID of `PlayerA` or
`PlayerB` of the in-progress session `FindSessionByPlayerID` finds,
`RecordChoice(playerID, choice)` succeeds; in the session afterwards the
pending choice of a player whose ID is `playerID` is `choice` (whatever it was
before), the other player's pending choice, both scores, `CurrentRound`,
`State` and `History` are as before, and the returned `bothSubmitted` is true
exactly when both pending choices are then non-empty. -/
theorem recordChoice_stores_choice (m : Manager) (now : Nat) (playerID : Int)
    (choice : PlayerChoice) (a : Nat) (s : Session) (hmu : m.mu = {})
    (hfind : m.FindSessionByPlayerID playerID = .returned (some a) m)
    (hs : m.heap[a]? = some s) (hmut : s.Mutex = false) (hst : s.State = .StateInProgress)
    (hp : playerID = s.PlayerA.ID ∨ playerID = s.PlayerB.ID) :
    ∃ (both : Bool) (m' : Manager) (s' : Session) (side : Side),
      m.RecordChoice now playerID choice = .returned (.ok (a, both)) m' ∧
      m'.heap[a]? = some s' ∧
      (s.player side).ID = playerID ∧
      (s'.player side).CurrentChoice = choice ∧
      (s'.player side.other).CurrentChoice = (s.player side.other).CurrentChoice ∧
      s'.PlayerA.Score = s.PlayerA.Score ∧ s'.PlayerB.Score = s.PlayerB.Score ∧
      s'.CurrentRound = s.CurrentRound ∧ s'.State = s.State ∧ s'.History = s.History ∧
      (both = true ↔
        s'.PlayerA.CurrentChoice ≠ ChoiceNone ∧ s'.PlayerB.CurrentChoice ≠ ChoiceNone) := by
  have hrun := recordChoice_run now playerID choice hmu (found_of_find hmu hfind) hs hmut hst
  have hget : (if (s.setChoice playerID choice now).bothPlayersChose then
        ({ m.store a (s.setChoice playerID choice now) with
          timerCallbacks := mapDelete m.timerCallbacks s.ID } : Manager)
      else m.store a (s.setChoice playerID choice now)).heap[a]?
        = some (s.setChoice playerID choice now) := by
    split
    · exact store_get_self _ hs
    · exact store_get_self _ hs
  have hboth : (s.setChoice playerID choice now).bothPlayersChose = true ↔
      (s.setChoice playerID choice now).PlayerA.CurrentChoice ≠ ChoiceNone ∧
        (s.setChoice playerID choice now).PlayerB.CurrentChoice ≠ ChoiceNone := by
    simp [Session.bothPlayersChose]
  rcases setChoice_cases s playerID choice now with ⟨hB, he⟩ | ⟨hB, he⟩
  · refine ⟨_, _, _, Side.B, hrun, hget, hB.symm, ?_, ?_, ?_, ?_, ?_, ?_, ?_, hboth⟩ <;>
      rw [he] <;> rfl
  · have hA : playerID = s.PlayerA.ID := hp.resolve_right hB
    refine ⟨_, _, _, Side.A, hrun, hget, hA.symm, ?_, ?_, ?_, ?_, ?_, ?_, ?_, hboth⟩ <;>
      rw [he] <;> rfl

theorem recordChoice_stores_choice_witness :
    ∃ (both : Bool) (m' : Manager) (s' : Session) (side : Side),
      oneChose.RecordChoice 20 2 ChoiceNegotiate = .returned (.ok (0, both)) m' ∧
      m'.heap[0]? = some s' ∧
      ((newSession ⟨zeroToken, 1, "alice", 3⟩ 2 "bob" 0).setChoice 1 ChoiceDefect 10
        |>.player side).ID = 2 ∧
      (s'.player side).CurrentChoice = ChoiceNegotiate ∧
      (s'.player side.other).CurrentChoice =
        ((newSession ⟨zeroToken, 1, "alice", 3⟩ 2 "bob" 0).setChoice 1 ChoiceDefect 10
          |>.player side.other).CurrentChoice ∧
      s'.PlayerA.Score = 0 ∧ s'.PlayerB.Score = 0 ∧
      s'.CurrentRound = 1 ∧ s'.State = .StateInProgress ∧ s'.History = [] ∧
      (both = true ↔
        s'.PlayerA.CurrentChoice ≠ ChoiceNone ∧ s'.PlayerB.CurrentChoice ≠ ChoiceNone) :=
  recordChoice_stores_choice oneChose 20 2 ChoiceNegotiate 0
    ((newSession ⟨zeroToken, 1, "alice", 3⟩ 2 "bob" 0).setChoice 1 ChoiceDefect 10)
    (by decide) (find_free (by decide) 2) (by decide) (by decide) (by decide) (by decide)

/-! ## One round of submissions -/

/-- C9 (as stated, refuted): three submissions in the first round of the
match `started`, with no `ProcessRound` in between, by player 1, player 2 and
player 1 again; the second and the third call both return
`bothSubmitted = true`, so two calls return true, not exactly one. -/
theorem resubmission_returns_true_again :
    recordChoices started
        [(10, 1, ChoiceDefect), (20, 2, ChoiceNegotiate), (25, 1, ChoiceNegotiate)]
      = [some false, some true, some true] ∧
    (recordChoices started
        [(10, 1, ChoiceDefect), (20, 2, ChoiceNegotiate), (25, 1, ChoiceNegotiate)]).count
      (some true) = 2 := by
  constructor <;> decide

theorem recordChoice_round_step {m : Manager} {a : Nat} {s : Session} (now : Nat)
    (playerID : Int) (choice : PlayerChoice) (hmu : m.mu = {})
    (hfind : (m.playerToSession playerID).bind m.sessions = some a)
    (hs : m.heap[a]? = some s) (hmut : s.Mutex = false) (hst : s.State = .StateInProgress) :
    ∃ m', m.RecordChoice now playerID choice
        = .returned (.ok (a, (s.setChoice playerID choice now).bothPlayersChose)) m' ∧
      m'.mu = {} ∧ m'.playerToSession = m.playerToSession ∧ m'.sessions = m.sessions ∧
      m'.heap[a]? = some (s.setChoice playerID choice now) := by
  refine ⟨_, recordChoice_run now playerID choice hmu hfind hs hmut hst, ?_⟩
  split
  · exact ⟨hmu, rfl, rfl, store_get_self _ hs⟩
  · exact ⟨hmu, rfl, rfl, store_get_self _ hs⟩

theorem recordChoices_in_round (idA idB : Int) (a : Nat) (hne : idA ≠ idB) :
    ∀ (calls : List (Nat × Int × PlayerChoice)) (m : Manager) (s : Session),
      m.mu = {} →
      (m.playerToSession idA).bind m.sessions = some a →
      (m.playerToSession idB).bind m.sessions = some a →
      m.heap[a]? = some s → s.Mutex = false → s.State = .StateInProgress →
      s.PlayerA.ID = idA → s.PlayerB.ID = idB →
      (∀ c ∈ calls, (c.2.1 = idA ∨ c.2.1 = idB) ∧ c.2.2 ≠ ChoiceNone) →
      ∀ i, i < calls.length →
        (recordChoices m calls)[i]? = some (some (decide
          ((s.PlayerA.CurrentChoice ≠ ChoiceNone ∨ idA ∈ (calls.take (i + 1)).map (·.2.1)) ∧
            (s.PlayerB.CurrentChoice ≠ ChoiceNone ∨
              idB ∈ (calls.take (i + 1)).map (·.2.1))))) := by
  intro calls
  induction calls with
  | nil => intro m s _ _ _ _ _ _ _ _ _ i hi; simp at hi
  | cons c rest ih =>
    intro m s hmu hfA hfB hs hmut hst hA hB hcalls i hi
    obtain ⟨now, playerID, choice⟩ := c
    obtain ⟨hpl, hch⟩ := hcalls (now, playerID, choice) (List.mem_cons_self _ _)
    simp only at hpl hch
    have hfind : (m.playerToSession playerID).bind m.sessions = some a := by
      rcases hpl with h | h <;> rw [h] <;> assumption
    obtain ⟨m', hrun, hmu', hidx, hsess, hs'⟩ :=
      recordChoice_round_step now playerID choice hmu hfind hs hmut hst
    have hchoices :
        ((s.setChoice playerID choice now).PlayerA.CurrentChoice ≠ ChoiceNone ↔
            (s.PlayerA.CurrentChoice ≠ ChoiceNone ∨ idA = playerID)) ∧
          ((s.setChoice playerID choice now).PlayerB.CurrentChoice ≠ ChoiceNone ↔
            (s.PlayerB.CurrentChoice ≠ ChoiceNone ∨ idB = playerID)) ∧
          (s.setChoice playerID choice now).PlayerA.ID = idA ∧
          (s.setChoice playerID choice now).PlayerB.ID = idB := by
      rcases setChoice_cases s playerID choice now with ⟨hp, he⟩ | ⟨hp, he⟩
      · rw [he]
        have h1 : idB = playerID := by rw [hp, hB]
        have h2 : ¬ idA = playerID := fun e => hne (e.trans h1.symm)
        refine ⟨?_, ?_, hA, hB⟩
        · show s.PlayerA.CurrentChoice ≠ ChoiceNone ↔ _
          exact ⟨Or.inl, fun h => h.resolve_right h2⟩
        · show choice ≠ ChoiceNone ↔ _
          exact ⟨fun _ => Or.inr h1, fun _ => hch⟩
      · rw [he]
        have h2 : ¬ idB = playerID := fun e => hp (by rw [← e, hB])
        have h1 : idA = playerID := by
          rcases hpl with h | h
          · exact h.symm
          · exact absurd h.symm h2
        refine ⟨?_, ?_, hA, hB⟩
        · show choice ≠ ChoiceNone ↔ _
          exact ⟨fun _ => Or.inr h1, fun _ => hch⟩
        · show s.PlayerB.CurrentChoice ≠ ChoiceNone ↔ _
          exact ⟨Or.inl, fun h => h.resolve_right h2⟩
    obtain ⟨hcA, hcB, hA', hB'⟩ := hchoices
    cases i with
    | zero =>
      simp only [recordChoices, hrun, List.getElem?_cons_zero, Session.bothPlayersChose]
      simp only [zero_add, List.take_succ_cons, List.take_zero, List.map_cons, List.map_nil,
        List.mem_singleton, Option.some.injEq, decide_eq_decide]
      rw [hcA, hcB]
    | succ j =>
      have hj : j < rest.length := by simpa using hi
      have hrest := ih m' (s.setChoice playerID choice now) hmu' (by rw [hidx, hsess]; exact hfA)
        (by rw [hidx, hsess]; exact hfB) hs' (by rw [setChoice_mutex]; exact hmut)
        (by rw [setChoice_state]; exact hst) hA' hB'
        (fun c hc => hcalls c (List.mem_cons_of_mem _ hc)) j hj
      simp only [recordChoices, hrun, Outcome.state, List.getElem?_cons_succ, hrest]
      simp only [List.take_succ_cons, List.map_cons, List.mem_cons, Option.some.injEq,
        decide_eq_decide]
      rw [hcA, hcB, or_assoc, or_assoc]

/-- C9 (amended): within one round of an in-progress session, starting with
both pending choices none and no lock held, in any sequence of `RecordChoice`
calls by the two players, each carrying cooperate or defect, every call
succeeds and returns `bothSubmitted = true` exactly when, that call included,
each of the two players has submitted at least once. -/
theorem bothSubmitted_iff_both_have_submitted (m : Manager) (a : Nat) (s : Session)
    (calls : List (Nat × Int × PlayerChoice)) (hmu : m.mu = {})
    (hfA : m.FindSessionByPlayerID s.PlayerA.ID = .returned (some a) m)
    (hfB : m.FindSessionByPlayerID s.PlayerB.ID = .returned (some a) m)
    (hs : m.heap[a]? = some s) (hmut : s.Mutex = false) (hst : s.State = .StateInProgress)
    (hne : s.PlayerA.ID ≠ s.PlayerB.ID)
    (hcA : s.PlayerA.CurrentChoice = ChoiceNone) (hcB : s.PlayerB.CurrentChoice = ChoiceNone)
    (hcalls : ∀ c ∈ calls, (c.2.1 = s.PlayerA.ID ∨ c.2.1 = s.PlayerB.ID) ∧
      (c.2.2 = ChoiceNegotiate ∨ c.2.2 = ChoiceDefect))
    (i : Nat) (hi : i < calls.length) :
    (recordChoices m calls)[i]? = some (some (decide
      (s.PlayerA.ID ∈ (calls.take (i + 1)).map (·.2.1) ∧
        s.PlayerB.ID ∈ (calls.take (i + 1)).map (·.2.1)))) := by
  have h := recordChoices_in_round s.PlayerA.ID s.PlayerB.ID a hne calls m s hmu
    (found_of_find hmu hfA) (found_of_find hmu hfB) hs hmut hst rfl rfl
    (fun c hc => ⟨(hcalls c hc).1, by
      rcases (hcalls c hc).2 with h | h <;> rw [h]
      · exact choice_negotiate_ne_none
      · exact choice_defect_ne_none⟩) i hi
  rw [h]
  simp [hcA, hcB]

theorem bothSubmitted_iff_both_have_submitted_witness :
    (recordChoices started
        [(10, 1, ChoiceDefect), (20, 2, ChoiceNegotiate), (25, 1, ChoiceNegotiate)])[2]?
      = some (some (decide
          ((newSession ⟨zeroToken, 1, "alice", 3⟩ 2 "bob" 0).PlayerA.ID ∈
              ([(10, 1, ChoiceDefect), (20, 2, ChoiceNegotiate),
                (25, 1, ChoiceNegotiate)].take (2 + 1)).map (·.2.1) ∧
            (newSession ⟨zeroToken, 1, "alice", 3⟩ 2 "bob" 0).PlayerB.ID ∈
              ([(10, 1, ChoiceDefect), (20, 2, ChoiceNegotiate),
                (25, 1, ChoiceNegotiate)].take (2 + 1)).map (·.2.1)))) :=
  bothSubmitted_iff_both_have_submitted started 0
    (newSession ⟨zeroToken, 1, "alice", 3⟩ 2 "bob" 0)
    [(10, 1, ChoiceDefect), (20, 2, ChoiceNegotiate), (25, 1, ChoiceNegotiate)]
    (by decide) (find_free (by decide) 1) (find_free (by decide) 2) (by decide) (by decide)
    (by decide) (by decide) (by decide) (by decide) (by decide) 2 (by decide)

/-! ## The round index of a session in progress -/

theorem stable_roundInRange : Stable Session.RoundInRange where
  mutex := fun _ _ h => h
  choice := by
    intro s p c now h
    unfold Session.setChoice
    split <;> exact h
  rematchFlag := by
    intro s p w h
    unfold Session.setWantsRematch
    split <;> exact h
  finished := by
    intro s _ _ hst
    cases hst
  forced := by
    intro s h
    unfold Session.forceDefect
    split <;> exact h
  fresh := by
    intro invite i u now hpos _
    simp only [newSession] at hpos ⊢
    exact ⟨le_refl 1, by omega⟩
  rematch := by
    intro old now _ hpos _
    simp only [rematchSession] at hpos ⊢
    exact ⟨le_refl 1, by omega⟩

theorem processRound_roundInRange (s : Session) (now₁ now₂ : Nat) (h : s.RoundInRange) :
    (s.ProcessRound now₁ now₂).1.RoundInRange := by
  unfold Session.ProcessRound
  by_cases hc : s.CurrentRound + 1 > s.TotalRounds
  · simp only [hc, if_true]
    intro _ hst
    cases hst
  · simp only [hc, if_false]
    intro hpos hst
    obtain ⟨h1, _⟩ := h hpos hst
    constructor
    · show 1 ≤ s.CurrentRound + 1
      omega
    · show s.CurrentRound + 1 ≤ s.TotalRounds
      omega

theorem reachable_roundInRange {m : Manager} (hm : Reachable m) :
    m.All Session.RoundInRange := by
  induction hm with
  | fresh => intro t ht; simp [NewManager] at ht
  | call m c _ ih => exact all_run stable_roundInRange processRound_roundInRange m c ih

/-- C11: in every state reachable from a fresh manager by calls of the eight
operations, every session object with a positive round count that is in
progress has `1 ≤ CurrentRound ≤ TotalRounds`. -/
theorem round_in_range_while_in_progress (m : Manager) (hm : Reachable m) (s : Session)
    (hs : s ∈ m.heap) (hpos : 0 < s.TotalRounds) (hst : s.State = .StateInProgress) :
    1 ≤ s.CurrentRound ∧ s.CurrentRound ≤ s.TotalRounds :=
  reachable_roundInRange hm s hs hpos hst

theorem round_in_range_while_in_progress_witness :
    Reachable played ∧ playedSession ∈ played.heap ∧ 0 < playedSession.TotalRounds ∧
      playedSession.State = .StateInProgress ∧
      1 ≤ playedSession.CurrentRound ∧ playedSession.CurrentRound ≤ playedSession.TotalRounds :=
  ⟨played_reachable, by decide, by decide, by decide,
    round_in_range_while_in_progress played played_reachable playedSession (by decide)
      (by decide) (by decide)⟩

/-! ## Timeout -/

/-- C12: in the match `started`, after player 1 has chosen (player 2 has
not), the session is found and in progress, yet `HandleTimeout(1)` does not
return: holding the session's lock it calls `ProcessRound`, which waits for
that lock.  The session is left in progress with its lock held. -/
theorem handleTimeout_blocks_when_one_chose :
    (oneChose.FindSessionByPlayerID 1).value? = some (some 0) ∧
      (oneChose.heap[0]?).map (·.State) = some .StateInProgress ∧
      (oneChose.HandleTimeout 40 41 1).isBlocked = true ∧
      ((oneChose.HandleTimeout 40 41 1).state.heap[0]?).map (fun s => (s.State, s.Mutex))
        = some (.StateInProgress, true) := by
  refine ⟨by decide, by decide, by decide, by decide⟩

/-- C13: in the match `started`, after player 2 has chosen to cooperate and
player 1 has chosen nothing, `HandleTimeout(1)` gives player 1 the choice
defect and then does not return (it waits in `ProcessRound` for the session
lock it holds): no round is resolved, both scores stay 0, the history stays
empty and the session stays in progress. -/
theorem handleTimeout_blocks_before_resolving :
    (accepterChose.heap[0]?).map
        (fun s => (s.State, s.PlayerA.CurrentChoice, s.PlayerB.CurrentChoice))
      = some (.StateInProgress, ChoiceNone, ChoiceNegotiate) ∧
      (accepterChose.HandleTimeout 40 41 1).isBlocked = true ∧
      ((accepterChose.HandleTimeout 40 41 1).state.heap[0]?).map
        (fun s => (s.PlayerA.CurrentChoice, s.PlayerB.CurrentChoice, s.PlayerA.Score,
          s.PlayerB.Score, s.State))
        = some (ChoiceDefect, ChoiceNegotiate, 0, 0, .StateInProgress) ∧
      ((accepterChose.HandleTimeout 40 41 1).state.heap[0]?).map (·.History) = some [] := by
  refine ⟨by decide, by decide, by decide, by decide⟩

theorem timerWake_free {m : Manager} (hmu : m.mu = {}) (sessionID : Int)
    (h : m.timerCallbacks sessionID = none) :
    m.timerWake sessionID = .returned none m := by
  obtain ⟨heap, sessions, pending, index, mu, timers, routines⟩ := m
  simp only at hmu h
  subst hmu
  simp [Manager.timerWake, Manager.RLock, Manager.RUnlock, h]

/-- C14: the race of the turn timer with the second submission.  In round two
of the match `started` the timer armed by `handleGameChoice` is pending and
player 1 has chosen to defect.  The timer goroutine wakes and reads the
callback; player 2 then chooses to cooperate, and `RecordChoice` returns
`bothChose = true` and leaves both choices pending in a session in progress.
The callback now runs `HandleTimeout(1)`: it does not return, and it leaves
player 2 with the choice to defect in place of the submitted one. -/
theorem handleTimeout_overwrites_when_both_chose :
    roundTwo.timerCallbacks 1 = some (.timeoutOf 1) ∧
      (armedOneChose.timerWake 1).value? = some (some (.timeoutOf 1)) ∧
      ((armedOneChose.timerWake 1).state.RecordChoice 60 2 ChoiceNegotiate).value?
        = some (.ok (0, true)) ∧
      (racedTimer.heap[0]?).map
          (fun s => (s.State, s.PlayerA.CurrentChoice, s.PlayerB.CurrentChoice, s.Mutex))
        = some (.StateInProgress, ChoiceDefect, ChoiceNegotiate, false) ∧
      racedTimer.mu = {} ∧
      (racedTimer.HandleTimeout 70 71 1).isBlocked = true ∧
      ((racedTimer.HandleTimeout 70 71 1).state.heap[0]?).map
          (fun s => (s.State, s.PlayerA.CurrentChoice, s.PlayerB.CurrentChoice, s.Mutex))
        = some (.StateInProgress, ChoiceDefect, ChoiceDefect, true) := by
  refine ⟨by decide, by decide, by decide, by decide, by decide, by decide, by decide⟩

/-! ## Forfeit -/

/-- C15: in the match `started` player 1 is in an in-progress session, yet
`ForfeitGame(1)` does not return: having set the state to finished it calls
`endGame`, which takes the manager lock and then calls `clearTimer`, which
waits for that same lock.  The session lock and the manager lock stay
held. -/
theorem forfeitGame_blocks :
    (started.FindSessionByPlayerID 1).value? = some (some 0) ∧
      (started.heap[0]?).map (·.State) = some .StateInProgress ∧
      (started.ForfeitGame 50 1).isBlocked = true ∧
      ((started.ForfeitGame 50 1).state.heap[0]?).map (fun s => (s.State, s.Mutex))
        = some (.StateFinished, true) ∧
      (started.ForfeitGame 50 1).state.mu.writer = true := by
  refine ⟨by decide, by decide, by decide, by decide, by decide⟩

/-! ## Rematch negotiation -/

theorem rlock_free {m : Manager} (hmu : m.mu = {}) :
    ∃ r, m.RLock = some r ∧ r.RUnlock = m ∧ r.playerToSession = m.playerToSession ∧
      r.sessions = m.sessions := by
  obtain ⟨heap, sessions, pending, index, mu, timers, routines⟩ := m
  simp only at hmu
  subst hmu
  exact ⟨⟨heap, sessions, pending, index, ⟨false, 1⟩, timers, routines⟩,
    by simp [Manager.RLock], by simp [Manager.RUnlock], rfl, rfl⟩

theorem clearPlayerSession_free {m : Manager} (hmu : m.mu = {}) (playerID : Int) :
    m.ClearPlayerSession playerID
      = .returned () { m with playerToSession := mapDelete m.playerToSession playerID } := by
  obtain ⟨heap, sessions, pending, index, mu, timers, routines⟩ := m
  simp only at hmu
  subst hmu
  simp [Manager.ClearPlayerSession, Manager.Lock, Manager.Unlock]

theorem setWantsRematch_locked (s : Session) (playerID : Int) (wants : Bool) (b : Bool) :
    Session.setWantsRematch { s with Mutex := b } playerID wants
      = { s.setWantsRematch playerID wants with Mutex := b } := by
  unfold Session.setWantsRematch
  split <;> rfl

theorem setWantsRematch_mutex (s : Session) (playerID : Int) (wants : Bool) :
    (s.setWantsRematch playerID wants).Mutex = s.Mutex := by
  unfold Session.setWantsRematch
  split <;> rfl

theorem setWantsRematch_ids (s : Session) (playerID : Int) (wants : Bool) :
    (s.setWantsRematch playerID wants).PlayerA.ID = s.PlayerA.ID ∧
      (s.setWantsRematch playerID wants).PlayerB.ID = s.PlayerB.ID := by
  unfold Session.setWantsRematch
  split <;> exact ⟨rfl, rfl⟩

theorem setRematchPreference_noIndex {m : Manager} (hmu : m.mu = {}) (playerID : Int)
    (wants : Bool) (h : m.playerToSession playerID = none) :
    m.SetRematchPreference playerID wants = .returned (.error "вы не находитесь в игре") m := by
  obtain ⟨r, hr, hru, hri, _⟩ := rlock_free hmu
  unfold Manager.SetRematchPreference
  rw [hr]
  simp only [hri, h, hru]

theorem setRematchPreference_noSession {m : Manager} (hmu : m.mu = {}) (playerID : Int)
    (wants : Bool) (sessionID : Int) (h : m.playerToSession playerID = some sessionID)
    (hsess : m.sessions sessionID = none) :
    m.SetRematchPreference playerID wants = .returned (.error "сессия не найдена") m := by
  obtain ⟨r, hr, hru, hri, hrs⟩ := rlock_free hmu
  unfold Manager.SetRematchPreference
  rw [hr]
  simp only [hri, h, hru, hr, hrs, hsess]

theorem mutex_false_eta (t : Session) (h : t.Mutex = false) :
    ({ t with Mutex := false } : Session) = t := by
  obtain ⟨id, pa, pb, total, current, state, mutex, history, deadline⟩ := t
  simp only at h
  subst h
  rfl

theorem unlock_after_lock (s : Session) (hmut : s.Mutex = false) :
    ({ ({ s with Mutex := true } : Session) with Mutex := false } : Session) = s := by
  obtain ⟨id, pa, pb, total, current, state, mutex, history, deadline⟩ := s
  simp only at hmut
  subst hmut
  rfl

theorem setRematchPreference_notFinished {m : Manager} {a : Nat} {s : Session}
    (hmu : m.mu = {}) (playerID : Int) (wants : Bool) (sessionID : Int)
    (h : m.playerToSession playerID = some sessionID) (hsess : m.sessions sessionID = some a)
    (hs : m.heap[a]? = some s) (hmut : s.Mutex = false) (hst : s.State ≠ .StateFinished) :
    m.SetRematchPreference playerID wants = .returned (.error "игра еще не завершена") m := by
  obtain ⟨r, hr, hru, hri, hrs⟩ := rlock_free hmu
  unfold Manager.SetRematchPreference
  rw [hr]
  simp only [hri, h, hru, hr, hrs, hsess, Outcome.andThen]
  rw [lockSession_free hs hmut]
  simp only []
  split
  · rw [unlockSession_store _ hs, unlock_after_lock s hmut, store_same hs]
  · next hc => exact absurd hst hc

theorem setRematchPreference_accept {m : Manager} {a : Nat} {s : Session}
    (hmu : m.mu = {}) (playerID : Int) (sessionID : Int)
    (h : m.playerToSession playerID = some sessionID) (hsess : m.sessions sessionID = some a)
    (hs : m.heap[a]? = some s) (hmut : s.Mutex = false) (hst : s.State = .StateFinished) :
    m.SetRematchPreference playerID true
      = .returned (.ok (a, (s.setWantsRematch playerID true).PlayerA.WantsRematch &&
            (s.setWantsRematch playerID true).PlayerB.WantsRematch))
          (m.store a (s.setWantsRematch playerID true)) := by
  obtain ⟨r, hr, hru, hri, hrs⟩ := rlock_free hmu
  have hunlocked : ({ s.setWantsRematch playerID true with Mutex := false } : Session)
      = s.setWantsRematch playerID true := by
    rw [← hmut, ← setWantsRematch_mutex s playerID true]
  unfold Manager.SetRematchPreference
  rw [hr]
  simp only [hri, h, hru, hr, hrs, hsess, Outcome.andThen]
  rw [lockSession_free hs hmut]
  simp only []
  split
  · next hc => exact absurd hst hc
  · rw [setWantsRematch_locked, store_store]
    simp only [Bool.true_eq_false, if_false]
    rw [unlockSession_eq (store_get_self _ hs), store_store, hunlocked]

theorem setRematchPreference_decline {m : Manager} {a : Nat} {s : Session}
    (hmu : m.mu = {}) (playerID : Int) (sessionID : Int)
    (h : m.playerToSession playerID = some sessionID) (hsess : m.sessions sessionID = some a)
    (hs : m.heap[a]? = some s) (hmut : s.Mutex = false) (hst : s.State = .StateFinished) :
    m.SetRematchPreference playerID false
      = .returned (.ok (a, false))
          { m.store a (s.setWantsRematch playerID false) with
            playerToSession :=
              mapDelete (mapDelete m.playerToSession s.PlayerA.ID) s.PlayerB.ID } := by
  obtain ⟨r, hr, hru, hri, hrs⟩ := rlock_free hmu
  have hunlocked : ({ s.setWantsRematch playerID false with Mutex := false } : Session)
      = s.setWantsRematch playerID false :=
    mutex_false_eta _ (by rw [setWantsRematch_mutex]; exact hmut)
  obtain ⟨hidA, hidB⟩ := setWantsRematch_ids s playerID false
  unfold Manager.SetRematchPreference
  rw [hr]
  simp only [hri, h, hru, hr, hrs, hsess, Outcome.andThen]
  rw [lockSession_free hs hmut]
  simp only []
  split
  · next hc => exact absurd hst hc
  · rw [setWantsRematch_locked, store_store]
    simp only [if_true]
    have hmu4 : (m.store a { s.setWantsRematch playerID false with Mutex := true }).mu = {} :=
      hmu
    rw [clearPlayerSession_free hmu4]
    simp only []
    have hmu5 : ({ m.store a { s.setWantsRematch playerID false with Mutex := true } with
        playerToSession := mapDelete
          (m.store a { s.setWantsRematch playerID false with Mutex := true }).playerToSession
          (s.setWantsRematch playerID false).PlayerA.ID } : Manager).mu = {} := hmu
    rw [clearPlayerSession_free hmu5]
    simp only []
    have hget : ({ ({ m.store a { s.setWantsRematch playerID false with Mutex := true } with
        playerToSession := mapDelete
          (m.store a { s.setWantsRematch playerID false with Mutex := true }).playerToSession
          (s.setWantsRematch playerID false).PlayerA.ID } : Manager) with
        playerToSession := mapDelete
          ({ m.store a { s.setWantsRematch playerID false with Mutex := true } with
            playerToSession := mapDelete
              (m.store a { s.setWantsRematch playerID false with Mutex := true }).playerToSession
              (s.setWantsRematch playerID false).PlayerA.ID } : Manager).playerToSession
          (s.setWantsRematch playerID false).PlayerB.ID } : Manager).heap[a]?
        = some { s.setWantsRematch playerID false with Mutex := true } :=
      store_get_self _ hs
    rw [unlockSession_eq hget]
    simp only [Manager.store, List.set_set, hunlocked]
    simp only [hidA, hidB]

theorem find_none_of_index {m : Manager} (hmu : m.mu = {}) (playerID : Int)
    (h : m.playerToSession playerID = none) :
    m.FindSessionByPlayerID playerID = .returned none m := by
  rw [find_free hmu, h]
  rfl

/-- C16: when no lock is held and `playerID` is a player of the finished
session the index and the sessions table lead to, `SetRematchPreference`
with `wants = false` succeeds with `bothAccepted = false`; afterwards
`FindSessionByPlayerID` reports absent for `PlayerA`, for `PlayerB` and so for
the caller, whatever the other player's rematch flag is, and the session
record is still stored in the sessions table, still finished. -/
theorem decline_frees_both_players (m : Manager) (playerID : Int) (sessionID : Int)
    (a : Nat) (s : Session) (hmu : m.mu = {})
    (hidx : m.playerToSession playerID = some sessionID)
    (hsess : m.sessions sessionID = some a) (hs : m.heap[a]? = some s)
    (hmut : s.Mutex = false) (hst : s.State = .StateFinished)
    (hp : playerID = s.PlayerA.ID ∨ playerID = s.PlayerB.ID) :
    ∃ (m' : Manager) (s' : Session),
      m.SetRematchPreference playerID false = .returned (.ok (a, false)) m' ∧
      m'.FindSessionByPlayerID s.PlayerA.ID = .returned none m' ∧
      m'.FindSessionByPlayerID s.PlayerB.ID = .returned none m' ∧
      m'.FindSessionByPlayerID playerID = .returned none m' ∧
      m'.sessions sessionID = some a ∧ m'.heap[a]? = some s' ∧
      s'.State = .StateFinished ∧ s'.PlayerA.ID = s.PlayerA.ID ∧
      s'.PlayerB.ID = s.PlayerB.ID ∧ s'.History = s.History ∧
      s'.PlayerA.Score = s.PlayerA.Score ∧ s'.PlayerB.Score = s.PlayerB.Score := by
  have hrun := setRematchPreference_decline hmu playerID sessionID hidx hsess hs hmut hst
  have hmu' : ({ m.store a (s.setWantsRematch playerID false) with
      playerToSession := mapDelete (mapDelete m.playerToSession s.PlayerA.ID) s.PlayerB.ID }
        : Manager).mu = {} := hmu
  have hA : ({ m.store a (s.setWantsRematch playerID false) with
      playerToSession := mapDelete (mapDelete m.playerToSession s.PlayerA.ID) s.PlayerB.ID }
        : Manager).playerToSession s.PlayerA.ID = none := by
    simp [mapDelete]
  have hB : ({ m.store a (s.setWantsRematch playerID false) with
      playerToSession := mapDelete (mapDelete m.playerToSession s.PlayerA.ID) s.PlayerB.ID }
        : Manager).playerToSession s.PlayerB.ID = none := by
    simp [mapDelete]
  have hfields : (s.setWantsRematch playerID false).State = s.State ∧
      (s.setWantsRematch playerID false).History = s.History ∧
      (s.setWantsRematch playerID false).PlayerA.Score = s.PlayerA.Score ∧
      (s.setWantsRematch playerID false).PlayerB.Score = s.PlayerB.Score := by
    unfold Session.setWantsRematch
    split <;> exact ⟨rfl, rfl, rfl, rfl⟩
  refine ⟨_, s.setWantsRematch playerID false, hrun, find_none_of_index hmu' _ hA,
    find_none_of_index hmu' _ hB, ?_, hsess, store_get_self _ hs, ?_,
    (setWantsRematch_ids s playerID false).1, (setWantsRematch_ids s playerID false).2,
    hfields.2.1, hfields.2.2.1, hfields.2.2.2⟩
  · have hP : ({ m.store a (s.setWantsRematch playerID false) with
        playerToSession :=
          mapDelete (mapDelete m.playerToSession s.PlayerA.ID) s.PlayerB.ID }
          : Manager).playerToSession playerID = none := by
      rcases hp with hp | hp <;> simp [mapDelete, hp]
    exact find_none_of_index hmu' _ hP
  · rw [hfields.1]; exact hst

theorem decline_frees_both_players_witness :
    ∃ (m' : Manager) (s' : Session),
      shortMatch.SetRematchPreference 2 false = .returned (.ok (0, false)) m' ∧
      m'.FindSessionByPlayerID shortMatchSession.PlayerA.ID = .returned none m' ∧
      m'.FindSessionByPlayerID shortMatchSession.PlayerB.ID = .returned none m' ∧
      m'.FindSessionByPlayerID 2 = .returned none m' ∧
      m'.sessions 1 = some 0 ∧ m'.heap[0]? = some s' ∧
      s'.State = .StateFinished ∧ s'.PlayerA.ID = shortMatchSession.PlayerA.ID ∧
      s'.PlayerB.ID = shortMatchSession.PlayerB.ID ∧
      s'.History = shortMatchSession.History ∧
      s'.PlayerA.Score = shortMatchSession.PlayerA.Score ∧
      s'.PlayerB.Score = shortMatchSession.PlayerB.Score :=
  decline_frees_both_players shortMatch 2 1 0 shortMatchSession (by decide) (by decide)
    (by decide) (by decide) (by decide) (by decide) (by decide)

theorem setWantsRematch_true_flags (s : Session) (playerID : Int) :
    (playerID = s.PlayerA.ID →
        (s.setWantsRematch playerID true).PlayerA.WantsRematch = true ∧
          (s.setWantsRematch playerID true).PlayerB.WantsRematch = s.PlayerB.WantsRematch) ∧
      (playerID ≠ s.PlayerA.ID →
        (s.setWantsRematch playerID true).PlayerB.WantsRematch = true ∧
          (s.setWantsRematch playerID true).PlayerA.WantsRematch = s.PlayerA.WantsRematch) := by
  unfold Session.setWantsRematch
  by_cases h : playerID = s.PlayerA.ID
  · simp [h]
  · simp [h]

/-- When no lock is held, `SetRematchPreference(playerID, wants)`
returns; it returns an error exactly when the player is not in the
player-to-session index, or the indexed session is not in the sessions table,
or that session is not finished, and an error return leaves the whole manager
state (every rematch flag and every index entry) as it was; on a finished
session with `wants = true` it succeeds, sets the `WantsRematch` flag of the
calling player (`PlayerA` if `playerID` is its ID, `PlayerB` otherwise) and
leaves the other flag and the index as they were, and it returns
`bothAccepted = true` exactly when both flags are then true. -/
theorem setRematchPreference_errors_and_flags (m : Manager) (playerID : Int) (wants : Bool)
    (hmu : m.mu = {})
    (hvalid : ∀ sessionID a, m.playerToSession playerID = some sessionID →
      m.sessions sessionID = some a → ∃ s, m.heap[a]? = some s ∧ s.Mutex = false) :
    (∃ r m', m.SetRematchPreference playerID wants = .returned r m') ∧
    ((∃ err m', m.SetRematchPreference playerID wants = .returned (.error err) m') ↔
      (m.playerToSession playerID = none ∨
        (∃ sessionID, m.playerToSession playerID = some sessionID ∧
          m.sessions sessionID = none) ∨
        (∃ sessionID a s, m.playerToSession playerID = some sessionID ∧
          m.sessions sessionID = some a ∧ m.heap[a]? = some s ∧
          s.State ≠ .StateFinished))) ∧
    (∀ err m', m.SetRematchPreference playerID wants = .returned (.error err) m' → m' = m) ∧
    (wants = true → ∀ sessionID a s, m.playerToSession playerID = some sessionID →
      m.sessions sessionID = some a → m.heap[a]? = some s → s.State = .StateFinished →
      ∃ (both : Bool) (m' : Manager) (s' : Session),
        m.SetRematchPreference playerID wants = .returned (.ok (a, both)) m' ∧
        m'.heap[a]? = some s' ∧ m'.playerToSession = m.playerToSession ∧
        (playerID = s.PlayerA.ID →
          s'.PlayerA.WantsRematch = true ∧
            s'.PlayerB.WantsRematch = s.PlayerB.WantsRematch) ∧
        (playerID ≠ s.PlayerA.ID →
          s'.PlayerB.WantsRematch = true ∧
            s'.PlayerA.WantsRematch = s.PlayerA.WantsRematch) ∧
        (both = true ↔ s'.PlayerA.WantsRematch = true ∧ s'.PlayerB.WantsRematch = true)) := by
  cases hidx : m.playerToSession playerID with
  | none =>
    have e := setRematchPreference_noIndex hmu playerID wants hidx
    rw [e]
    refine ⟨⟨_, _, rfl⟩, ⟨fun _ => Or.inl rfl, fun _ => ⟨_, _, rfl⟩⟩, ?_, ?_⟩
    · intro err m' he
      injection he with _ hm
      exact hm.symm
    · intro _ sessionID a s h
      cases h
  | some sid =>
    cases hsess : m.sessions sid with
    | none =>
      have e := setRematchPreference_noSession hmu playerID wants sid hidx hsess
      rw [e]
      refine ⟨⟨_, _, rfl⟩, ⟨fun _ => Or.inr (Or.inl ⟨sid, rfl, hsess⟩), fun _ => ⟨_, _, rfl⟩⟩,
        ?_, ?_⟩
      · intro err m' he
        injection he with _ hm
        exact hm.symm
      · intro _ sessionID a s h hs'
        injection h with h
        subst h
        rw [hsess] at hs'
        cases hs'
    | some a =>
      obtain ⟨s, hs, hmut⟩ := hvalid sid a hidx hsess
      by_cases hst : s.State = .StateFinished
      · have hok : ∃ both m', m.SetRematchPreference playerID wants
            = .returned (.ok (a, both)) m' := by
          cases wants with
          | true => exact ⟨_, _, setRematchPreference_accept hmu playerID sid hidx hsess hs hmut hst⟩
          | false =>
            exact ⟨_, _, setRematchPreference_decline hmu playerID sid hidx hsess hs hmut hst⟩
        obtain ⟨both, m', hrun⟩ := hok
        refine ⟨⟨_, _, hrun⟩, ⟨?_, ?_⟩, ?_, ?_⟩
        · rintro ⟨err, m'', he⟩
          rw [hrun] at he
          injection he with hv _
          cases hv
        · rintro (hc | ⟨sid', h1, h2⟩ | ⟨sid', a', s', h1, h2, h3, h4⟩)
          · cases hc
          · injection h1 with h1
            subst h1
            rw [hsess] at h2
            cases h2
          · injection h1 with h1
            subst h1
            rw [hsess] at h2
            injection h2 with h2
            subst h2
            rw [hs] at h3
            injection h3 with h3
            subst h3
            exact absurd hst h4
        · intro err m'' he
          rw [hrun] at he
          injection he with hv _
          cases hv
        · intro hw sid' a' s' h1 h2 h3 _
          subst hw
          injection h1 with h1
          subst h1
          rw [hsess] at h2
          injection h2 with h2
          subst h2
          rw [hs] at h3
          injection h3 with h3
          subst h3
          refine ⟨_, _, s.setWantsRematch playerID true,
            setRematchPreference_accept hmu playerID sid hidx hsess hs hmut hst,
            store_get_self _ hs, rfl, (setWantsRematch_true_flags s playerID).1,
            (setWantsRematch_true_flags s playerID).2, ?_⟩
          simp
      · have e := setRematchPreference_notFinished hmu playerID wants sid hidx hsess hs hmut hst
        rw [e]
        refine ⟨⟨_, _, rfl⟩,
          ⟨fun _ => Or.inr (Or.inr ⟨sid, a, s, rfl, hsess, hs, hst⟩), fun _ => ⟨_, _, rfl⟩⟩,
          ?_, ?_⟩
        · intro err m' he
          injection he with _ hm
          exact hm.symm
        · intro _ sid' a' s' h1 h2 h3 h4
          injection h1 with h1
          subst h1
          rw [hsess] at h2
          injection h2 with h2
          subst h2
          rw [hs] at h3
          injection h3 with h3
          subst h3
          exact absurd h4 hst

theorem shortMatch_lookup (sessionID : Int) (a : Nat)
    (h₁ : shortMatch.playerToSession 1 = some sessionID)
    (h₂ : shortMatch.sessions sessionID = some a) :
    ∃ s, shortMatch.heap[a]? = some s ∧ s.Mutex = false := by
  have e₁ : shortMatch.playerToSession 1 = some 1 := by decide
  rw [e₁] at h₁
  injection h₁ with h₁
  subst h₁
  have e₂ : shortMatch.sessions 1 = some 0 := by decide
  rw [e₂] at h₂
  injection h₂ with h₂
  subst h₂
  exact ⟨shortMatchSession, by decide, by decide⟩

theorem setRematchPreference_errors_and_flags_witness :
    (∃ r m', shortMatch.SetRematchPreference 1 true = .returned r m') ∧
    ((∃ err m', shortMatch.SetRematchPreference 1 true = .returned (.error err) m') ↔
      (shortMatch.playerToSession 1 = none ∨
        (∃ sessionID, shortMatch.playerToSession 1 = some sessionID ∧
          shortMatch.sessions sessionID = none) ∨
        (∃ sessionID a s, shortMatch.playerToSession 1 = some sessionID ∧
          shortMatch.sessions sessionID = some a ∧ shortMatch.heap[a]? = some s ∧
          s.State ≠ .StateFinished))) ∧
    (∀ err m', shortMatch.SetRematchPreference 1 true = .returned (.error err) m' →
      m' = shortMatch) ∧
    (true = true → ∀ sessionID a s, shortMatch.playerToSession 1 = some sessionID →
      shortMatch.sessions sessionID = some a → shortMatch.heap[a]? = some s →
      s.State = .StateFinished →
      ∃ (both : Bool) (m' : Manager) (s' : Session),
        shortMatch.SetRematchPreference 1 true = .returned (.ok (a, both)) m' ∧
        m'.heap[a]? = some s' ∧ m'.playerToSession = shortMatch.playerToSession ∧
        ((1 : Int) = s.PlayerA.ID →
          s'.PlayerA.WantsRematch = true ∧
            s'.PlayerB.WantsRematch = s.PlayerB.WantsRematch) ∧
        ((1 : Int) ≠ s.PlayerA.ID →
          s'.PlayerB.WantsRematch = true ∧
            s'.PlayerA.WantsRematch = s.PlayerA.WantsRematch) ∧
        (both = true ↔ s'.PlayerA.WantsRematch = true ∧ s'.PlayerB.WantsRematch = true)) :=
  setRematchPreference_errors_and_flags shortMatch 1 true (by decide) shortMatch_lookup

/-! ## Rematch -/

theorem startRematch_run {m : Manager} {old : Nat} {oldSession : Session} (hmu : m.mu = {})
    (now : Nat) (sessionID : Int) (hsess : m.sessions sessionID = some old)
    (hs : m.heap[old]? = some oldSession) :
    m.StartRematch now sessionID
      = .returned (.ok m.heap.length)
          { m with
            heap := m.heap ++ [rematchSession oldSession now]
            sessions := mapSet m.sessions sessionID m.heap.length
            playerToSession :=
              mapSet (mapSet m.playerToSession oldSession.PlayerA.ID sessionID)
                oldSession.PlayerB.ID sessionID } := by
  obtain ⟨heap, sessions, pending, index, mu, timers, routines⟩ := m
  simp only at hmu hsess hs
  subst hmu
  simp [Manager.StartRematch, Manager.Lock, Manager.Unlock, hsess, hs, rematchSession]

/-- C18: when the manager lock is free and a session is stored under
`sessionID`, `StartRematch(sessionID)` succeeds; the session stored under
`sessionID` afterwards has the ID, the two player ids and display names and
the `TotalRounds` of the old one, both scores 0, both pending choices none,
both `WantsRematch` flags false, `CurrentRound` 1, empty `History`, state in
progress and a deadline two minutes ahead, and both player ids map to
`sessionID` in the player-to-session index. -/
theorem startRematch_resets_session (m : Manager) (now : Nat) (sessionID : Int) (old : Nat)
    (oldSession : Session) (hmu : m.mu = {}) (hsess : m.sessions sessionID = some old)
    (hs : m.heap[old]? = some oldSession) :
    ∃ (a : Nat) (m' : Manager) (s' : Session),
      m.StartRematch now sessionID = .returned (.ok a) m' ∧
      m'.sessions sessionID = some a ∧ m'.heap[a]? = some s' ∧
      s'.ID = oldSession.ID ∧
      s'.PlayerA.ID = oldSession.PlayerA.ID ∧
      s'.PlayerA.Username = oldSession.PlayerA.Username ∧
      s'.PlayerB.ID = oldSession.PlayerB.ID ∧
      s'.PlayerB.Username = oldSession.PlayerB.Username ∧
      s'.TotalRounds = oldSession.TotalRounds ∧
      s'.PlayerA.Score = 0 ∧ s'.PlayerB.Score = 0 ∧
      s'.PlayerA.CurrentChoice = ChoiceNone ∧ s'.PlayerB.CurrentChoice = ChoiceNone ∧
      s'.PlayerA.WantsRematch = false ∧ s'.PlayerB.WantsRematch = false ∧
      s'.CurrentRound = 1 ∧ s'.History = [] ∧ s'.State = .StateInProgress ∧
      s'.TurnDeadline = now + twoMinutes ∧
      m'.playerToSession oldSession.PlayerA.ID = some sessionID ∧
      m'.playerToSession oldSession.PlayerB.ID = some sessionID := by
  refine ⟨_, _, rematchSession oldSession now, startRematch_run hmu now sessionID hsess hs,
    ?_, ?_, rfl, rfl, rfl, rfl, rfl, rfl, rfl, rfl, rfl, rfl, rfl, rfl, rfl, rfl, rfl, rfl,
    ?_, ?_⟩
  · simp [mapSet]
  · simp
  · by_cases h : oldSession.PlayerA.ID = oldSession.PlayerB.ID <;> simp [mapSet, h]
  · simp [mapSet]

theorem startRematch_resets_session_witness :
    ∃ (a : Nat) (m' : Manager) (s' : Session),
      shortMatch.StartRematch 60 1 = .returned (.ok a) m' ∧
      m'.sessions 1 = some a ∧ m'.heap[a]? = some s' ∧
      s'.ID = shortMatchSession.ID ∧
      s'.PlayerA.ID = shortMatchSession.PlayerA.ID ∧
      s'.PlayerA.Username = shortMatchSession.PlayerA.Username ∧
      s'.PlayerB.ID = shortMatchSession.PlayerB.ID ∧
      s'.PlayerB.Username = shortMatchSession.PlayerB.Username ∧
      s'.TotalRounds = shortMatchSession.TotalRounds ∧
      s'.PlayerA.Score = 0 ∧ s'.PlayerB.Score = 0 ∧
      s'.PlayerA.CurrentChoice = ChoiceNone ∧ s'.PlayerB.CurrentChoice = ChoiceNone ∧
      s'.PlayerA.WantsRematch = false ∧ s'.PlayerB.WantsRematch = false ∧
      s'.CurrentRound = 1 ∧ s'.History = [] ∧ s'.State = .StateInProgress ∧
      s'.TurnDeadline = 60 + twoMinutes ∧
      m'.playerToSession shortMatchSession.PlayerA.ID = some 1 ∧
      m'.playerToSession shortMatchSession.PlayerB.ID = some 1 :=
  startRematch_resets_session shortMatch 60 1 0 shortMatchSession (by decide) (by decide)
    (by decide)

/-- C19 (as stated, refuted): in the state `played` the session stored under
id 1 is in progress with one round played and scores 5 and 0; `StartRematch(1)`
returns no error, and the session stored under id 1 afterwards has score 0 for
`PlayerA`, an empty history and round index 1. -/
theorem startRematch_restarts_session_in_progress :
    played.sessions 1 = some 0 ∧
      (played.heap[0]?).map (fun s => (s.State, s.PlayerA.Score, s.History.length))
        = some (.StateInProgress, 5, 1) ∧
      (played.StartRematch 60 1).value? = some (.ok 1) ∧
      (played.StartRematch 60 1).state.sessions 1 = some 1 ∧
      ((played.StartRematch 60 1).state.heap[1]?).map
        (fun s => (s.State, s.PlayerA.Score, s.History.length, s.CurrentRound))
        = some (.StateInProgress, 0, 0, 1) := by
  refine ⟨by decide, by decide, by decide, by decide, by decide⟩

/-- C19 (amended): the state check of a rematch is made by
`SetRematchPreference`, which the rematch negotiation of `handleRematchChoice`
calls first.  When no lock is held and the session the player is indexed to is
not finished, the negotiation returns an error without reaching `StartRematch`
and leaves the whole manager state (that session's scores, `History`,
`CurrentRound` and `State` included) as it was.  `StartRematch` itself makes no
state check: called for that session it succeeds and stores under the id a
fresh session in progress, at round 1, with empty history and scores 0. -/
theorem rematch_state_check_is_upstream (m : Manager) (now : Nat) (playerID : Int)
    (wants : Bool) (sessionID : Int) (a : Nat) (s : Session) (hmu : m.mu = {})
    (hidx : m.playerToSession playerID = some sessionID)
    (hsess : m.sessions sessionID = some a) (hs : m.heap[a]? = some s)
    (hmut : s.Mutex = false) (hst : s.State ≠ .StateFinished) :
    (∃ err, handleRematchChoice m now playerID wants = .returned (.error err) m) ∧
    (∃ (a' : Nat) (m' : Manager) (s' : Session),
      m.StartRematch now sessionID = .returned (.ok a') m' ∧
      m'.sessions sessionID = some a' ∧ m'.heap[a']? = some s' ∧
      s'.State = .StateInProgress ∧ s'.CurrentRound = 1 ∧ s'.History = [] ∧
      s'.PlayerA.Score = 0 ∧ s'.PlayerB.Score = 0) := by
  constructor
  · refine ⟨"игра еще не завершена", ?_⟩
    unfold handleRematchChoice
    rw [setRematchPreference_notFinished hmu playerID wants sessionID hidx hsess hs hmut hst]
    rfl
  · refine ⟨_, _, rematchSession s now, startRematch_run hmu now sessionID hsess hs, ?_, ?_,
      rfl, rfl, rfl, rfl, rfl⟩
    · simp [mapSet]
    · simp

theorem rematch_state_check_is_upstream_witness :
    (∃ err, handleRematchChoice played 60 1 true = .returned (.error err) played) ∧
    (∃ (a' : Nat) (m' : Manager) (s' : Session),
      played.StartRematch 60 1 = .returned (.ok a') m' ∧
      m'.sessions 1 = some a' ∧ m'.heap[a']? = some s' ∧
      s'.State = .StateInProgress ∧ s'.CurrentRound = 1 ∧ s'.History = [] ∧
      s'.PlayerA.Score = 0 ∧ s'.PlayerB.Score = 0) :=
  rematch_state_check_is_upstream played 60 1 true 1 0 playedSession (by decide) (by decide)
    (by decide) (by decide) (by decide) (by decide)

/-! ## A match of one round, end to end -/

theorem createInvite_fresh (f : Nat → Fin 256) (inviterID : Int) (inviterUsername : String)
    (rounds : Int) :
    ∃ token, NewManager.CreateInvite (some f) inviterID inviterUsername rounds
      = .returned (.ok token)
          { NewManager with
            pendingByID := mapSet NewManager.pendingByID token
              ⟨token, inviterID, inviterUsername, rounds⟩ } := by
  refine ⟨String.mk (((List.range 8).map f).flatMap hexByte), ?_⟩
  simp [Manager.CreateInvite, Manager.Lock, Manager.Unlock, GenerateID, NewManager]

theorem setChoice_playerA (s : Session) (playerID : Int) (choice : PlayerChoice) (now : Nat)
    (h : playerID ≠ s.PlayerB.ID) :
    s.setChoice playerID choice now
      = { s with
          PlayerA := { s.PlayerA with CurrentChoice := choice, LastMoveTime := now } } := by
  simp [Session.setChoice, h]

theorem setChoice_playerB (s : Session) (choice : PlayerChoice) (now : Nat) :
    s.setChoice s.PlayerB.ID choice now
      = { s with
          PlayerB := { s.PlayerB with CurrentChoice := choice, LastMoveTime := now } } := by
  simp [Session.setChoice]

/-- C20: from a fresh manager, for any two different players and any moves
`cA`, `cB` in cooperate / defect: `CreateInvite` with round count 1 returns a
token, `AcceptInvite` by the other player returns a session, `RecordChoice` by
the inviter returns `bothSubmitted = false`, `RecordChoice` by the accepter
returns `bothSubmitted = true`, and `ProcessRound` returns; the session is
then finished, its history has exactly one entry, recording round 1, the two
moves and the payoff-table deltas, and the two scores equal those deltas. -/
theorem one_round_match (f : Nat → Fin 256) (inviterID accepterID : Int)
    (inviterUsername accepterUsername : String) (t₀ t₁ t₂ t₃ t₄ : Nat) (cA cB : PlayerChoice)
    (hne : inviterID ≠ accepterID)
    (hA : cA = ChoiceNegotiate ∨ cA = ChoiceDefect)
    (hB : cB = ChoiceNegotiate ∨ cB = ChoiceDefect) :
    ∃ (token : String) (m₁ : Manager) (a : Nat) (m₂ m₃ m₄ : Manager)
      (msgs : String × String) (m₅ : Manager) (s : Session) (dA dB : Int),
      NewManager.CreateInvite (some f) inviterID inviterUsername 1
        = .returned (.ok token) m₁ ∧
      m₁.AcceptInvite t₀ token accepterID accepterUsername = .returned (.ok a) m₂ ∧
      m₂.RecordChoice t₁ inviterID cA = .returned (.ok (a, false)) m₃ ∧
      m₃.RecordChoice t₂ accepterID cB = .returned (.ok (a, true)) m₄ ∧
      m₄.ProcessRound t₃ t₄ a = .returned msgs m₅ ∧
      m₅.heap[a]? = some s ∧ s.State = .StateFinished ∧
      s.History =
        [{ Round := 1, PlayerAChoice := cA, PlayerBChoice := cB, PlayerAScore := dA,
           PlayerBScore := dB, Timestamp := t₃ }] ∧
      s.PlayerA.Score = dA ∧ s.PlayerB.Score = dB ∧
      (cA = ChoiceNegotiate → cB = ChoiceNegotiate → dA = 3 ∧ dB = 3) ∧
      (cA = ChoiceNegotiate → cB = ChoiceDefect → dA = 0 ∧ dB = 5) ∧
      (cA = ChoiceDefect → cB = ChoiceNegotiate → dA = 5 ∧ dB = 0) ∧
      (cA = ChoiceDefect → cB = ChoiceDefect → dA = 1 ∧ dB = 1) := by
  have hnd := choice_negotiate_ne_defect
  have hdn : ChoiceDefect ≠ ChoiceNegotiate := fun e => hnd e.symm
  have hcA : cA ≠ ChoiceNone := by
    rcases hA with h | h <;> rw [h]
    · exact choice_negotiate_ne_none
    · exact choice_defect_ne_none
  have hcB : cB ≠ ChoiceNone := by
    rcases hB with h | h <;> rw [h]
    · exact choice_negotiate_ne_none
    · exact choice_defect_ne_none
  obtain ⟨token, h1⟩ := createInvite_fresh f inviterID inviterUsername 1
  have h2 := acceptInvite_other
    (m := { NewManager with
      pendingByID := mapSet NewManager.pendingByID token
        ⟨token, inviterID, inviterUsername, 1⟩ })
    rfl t₀ token accepterID accepterUsername ⟨token, inviterID, inviterUsername, 1⟩
    (by simp [mapSet]) hne
  obtain ⟨m₃, h3, hmu3, hidx3, hsess3, hs3⟩ := recordChoice_round_step
    (m := { ({ NewManager with
        pendingByID := mapSet NewManager.pendingByID token
          ⟨token, inviterID, inviterUsername, 1⟩ } : Manager) with
      heap := [] ++ [newSession ⟨token, inviterID, inviterUsername, 1⟩ accepterID
        accepterUsername t₀]
      sessions := mapSet NewManager.sessions inviterID 0
      playerToSession :=
        mapSet (mapSet NewManager.playerToSession inviterID inviterID) accepterID inviterID
      pendingByID := mapDelete (mapSet NewManager.pendingByID token
        ⟨token, inviterID, inviterUsername, 1⟩) token })
    (a := 0)
    (s := newSession ⟨token, inviterID, inviterUsername, 1⟩ accepterID accepterUsername t₀)
    t₁ inviterID cA rfl (by simp [mapSet, hne]) (by simp) rfl rfl
  have hA1 := setChoice_playerA
    (newSession ⟨token, inviterID, inviterUsername, 1⟩ accepterID accepterUsername t₀)
    inviterID cA t₁ hne
  rw [hA1] at h3 hs3
  obtain ⟨m₄, h4, hmu4, hidx4, hsess4, hs4⟩ := recordChoice_round_step (m := m₃) (a := 0)
    t₂ accepterID cB hmu3 (by rw [hidx3, hsess3]; simp [mapSet]) hs3 rfl rfl
  have hB1 := setChoice_playerB
    ({ newSession ⟨token, inviterID, inviterUsername, 1⟩ accepterID accepterUsername t₀ with
      PlayerA := { (newSession ⟨token, inviterID, inviterUsername, 1⟩ accepterID
        accepterUsername t₀).PlayerA with CurrentChoice := cA, LastMoveTime := t₁ } })
    cB t₂
  simp only [newSession] at hB1 h3 hs3 h4 hs4
  rw [hB1] at h4 hs4
  have h5 := processRound_run t₃ t₄ hs4 rfl
  have hb3 : Session.bothPlayersChose
      { ID := inviterID,
        PlayerA := { ID := inviterID, Username := inviterUsername, CurrentChoice := cA,
                     LastMoveTime := t₁ },
        PlayerB := { ID := accepterID, Username := accepterUsername },
        TotalRounds := 1, CurrentRound := 1, State := .StateInProgress, History := [],
        TurnDeadline := t₀ + twoMinutes } = false := by
    simp [Session.bothPlayersChose]
  have hb4 : Session.bothPlayersChose
      { ID := inviterID,
        PlayerA := { ID := inviterID, Username := inviterUsername, CurrentChoice := cA,
                     LastMoveTime := t₁ },
        PlayerB := { ID := accepterID, Username := accepterUsername, CurrentChoice := cB,
                     LastMoveTime := t₂ },
        TotalRounds := 1, CurrentRound := 1, State := .StateInProgress, History := [],
        TurnDeadline := t₀ + twoMinutes } = true := by
    simp [Session.bothPlayersChose, hcA, hcB]
  rw [hb3] at h3
  rw [hb4] at h4
  refine ⟨token, _, 0, _, m₃, m₄, _, _, _, (roundOutcome cA cB inviterUsername
    accepterUsername).1, (roundOutcome cA cB inviterUsername accepterUsername).2.1,
    h1, h2, h3, h4, h5, store_get_self _ hs4, ?_⟩
  rcases hA with hA | hA <;> rcases hB with hB | hB <;>
    simp [Session.ProcessRound, roundOutcome, hA, hB, hnd, hdn]

theorem one_round_match_witness :
    ∃ (token : String) (m₁ : Manager) (a : Nat) (m₂ m₃ m₄ : Manager)
      (msgs : String × String) (m₅ : Manager) (s : Session) (dA dB : Int),
      NewManager.CreateInvite (some fun _ => 0) 1 "alice" 1 = .returned (.ok token) m₁ ∧
      m₁.AcceptInvite 0 token 2 "bob" = .returned (.ok a) m₂ ∧
      m₂.RecordChoice 10 1 ChoiceNegotiate = .returned (.ok (a, false)) m₃ ∧
      m₃.RecordChoice 20 2 ChoiceNegotiate = .returned (.ok (a, true)) m₄ ∧
      m₄.ProcessRound 30 31 a = .returned msgs m₅ ∧
      m₅.heap[a]? = some s ∧ s.State = .StateFinished ∧
      s.History =
        [{ Round := 1, PlayerAChoice := ChoiceNegotiate, PlayerBChoice := ChoiceNegotiate,
           PlayerAScore := dA, PlayerBScore := dB, Timestamp := 30 }] ∧
      s.PlayerA.Score = dA ∧ s.PlayerB.Score = dB ∧
      (ChoiceNegotiate = ChoiceNegotiate → ChoiceNegotiate = ChoiceNegotiate →
        dA = 3 ∧ dB = 3) ∧
      (ChoiceNegotiate = ChoiceNegotiate → ChoiceNegotiate = ChoiceDefect →
        dA = 0 ∧ dB = 5) ∧
      (ChoiceNegotiate = ChoiceDefect → ChoiceNegotiate = ChoiceNegotiate →
        dA = 5 ∧ dB = 0) ∧
      (ChoiceNegotiate = ChoiceDefect → ChoiceNegotiate = ChoiceDefect → dA = 1 ∧ dB = 1) :=
  one_round_match (fun _ => 0) 1 2 "alice" "bob" 0 10 20 30 31 ChoiceNegotiate ChoiceNegotiate
    (by decide) (Or.inl rfl) (Or.inl rfl)

/-! ## Symmetry of the payoff -/

/-- C22: in the states `started` and `oneChose` no lock is held (the manager
lock is free and no session lock is taken), yet a single `ForfeitGame(1)` in
`started` and a single `HandleTimeout(1)` in `oneChose` do not return: each
stops at a lock the call itself holds, the manager lock in `clearTimer` under
`endGame` and the session lock in `ProcessRound` under `HandleTimeout`. -/
theorem calls_block_on_their_own_locks :
    started.mu = {} ∧ (∀ s ∈ started.heap, s.Mutex = false) ∧
      (started.ForfeitGame 50 1).isBlocked = true ∧
      (started.ForfeitGame 50 1).state.mu.writer = true ∧
      oneChose.mu = {} ∧ (∀ s ∈ oneChose.heap, s.Mutex = false) ∧
      (oneChose.HandleTimeout 40 41 1).isBlocked = true ∧
      ((oneChose.HandleTimeout 40 41 1).state.heap[0]?).map (·.Mutex) = some true := by
  refine ⟨by decide, by decide, by decide, by decide, by decide, by decide, by decide,
    by decide⟩

/-! ## Re-arming the turn timer -/

/-- C23: after `SetTurnTimer` at time 0 and again one minute later for the
same session, both goroutines are still asleep, the first due two minutes
after the first arming, which is one minute before two minutes have passed
since the latest arming; when a goroutine of that session wakes it finds the
callback of the latest arming and calls it, and the next one to wake finds and
calls it again.  The same holds when `clearTimer` is called between the two
armings. -/
theorem earlier_wakeup_calls_latest_callback :
    rearmed.goroutines
        = [.timerWake 1 (0 + twoMinutes), .timerWake 1 (60000000000 + twoMinutes)] ∧
      0 + twoMinutes < 60000000000 + twoMinutes ∧
      (rearmed.timerWake 1).value? = some (some (.timeoutOf 1)) ∧
      ((rearmed.timerWake 1).state.timerWake 1).value? = some (some (.timeoutOf 1)) ∧
      rearmedAfterClear.goroutines
        = [.timerWake 1 (0 + twoMinutes), .timerWake 1 (60000000000 + twoMinutes)] ∧
      (rearmedAfterClear.timerWake 1).value? = some (some (.timeoutOf 1)) ∧
      ((rearmedAfterClear.timerWake 1).state.timerWake 1).value?
        = some (some (.timeoutOf 1)) := by
  refine ⟨by decide, by decide, by decide, by decide, by decide, by decide, by decide⟩

/-! ## Consistency of the player-to-session index -/

/-- C24: the state `overwritten` is reached from a fresh manager by two
`CreateInvite` calls of player 1 and `AcceptInvite` calls of players 2 and 3,
each accepter being absent from the index when accepting.  In it the index
maps player 2 to session id 1, and the session stored under id 1 has players 1
and 3; `RecordChoice(2, defect)` succeeds and sets the pending choice of
`PlayerA`, whose id is 1. -/
theorem index_entry_of_replaced_session :
    ReachableChecked overwritten ∧
      overwritten.playerToSession 2 = some 1 ∧ overwritten.sessions 1 = some 1 ∧
      (overwritten.heap[1]?).map
          (fun s => (s.PlayerA.ID, s.PlayerB.ID, s.PlayerA.CurrentChoice, s.State))
        = some (1, 3, ChoiceNone, .StateInProgress) ∧
      (overwritten.RecordChoice 10 2 ChoiceDefect).value? = some (.ok (1, false)) ∧
      ((overwritten.RecordChoice 10 2 ChoiceDefect).state.heap[1]?).map
          (fun s => (s.PlayerA.ID, s.PlayerA.CurrentChoice, s.PlayerB.ID,
            s.PlayerB.CurrentChoice))
        = some (1, ChoiceDefect, 3, ChoiceNone) := by
  refine ⟨?_, by decide, by decide, by decide, by decide, by decide⟩
  refine ReachableChecked.call _ (.AcceptInvite 5 oneToken 3 "carol")
    (ReachableChecked.call _ (.AcceptInvite 0 zeroToken 2 "bob")
      (ReachableChecked.call _ (.CreateInvite (some fun _ => 1) 1 "alice" 3)
        (ReachableChecked.call _ (.CreateInvite (some fun _ => 0) 1 "alice" 3)
          ReachableChecked.fresh trivial) trivial) ?_) ?_
  · show Manager.playerToSession _ 2 = none
    decide
  · show Manager.playerToSession _ 3 = none
    decide


theorem overwrittenFinished_reachable : ReachableChecked overwrittenFinished := by
  refine ReachableChecked.call _ (.HandleTimeout 40 41 1)
    (ReachableChecked.call _ (.AcceptInvite 5 oneToken 3 "carol")
      (ReachableChecked.call _ (.AcceptInvite 0 zeroToken 2 "bob")
        (ReachableChecked.call _ (.CreateInvite (some fun _ => 1) 1 "alice" 3)
          (ReachableChecked.call _ (.CreateInvite (some fun _ => 0) 1 "alice" 3)
            ReachableChecked.fresh trivial) trivial) ?_) ?_) trivial
  · show Manager.playerToSession _ 2 = none
    decide
  · show Manager.playerToSession _ 3 = none
    decide

/-- C17: the state `overwrittenFinished` is reached from a fresh manager with
each accepter absent from the index when accepting.  In it the index maps
player 2 to session id 1, and the session stored under id 1 is finished and
has players 1 and 3, neither with the rematch flag set.
`SetRematchPreference(2, true)` succeeds and sets the flag of `PlayerB`, whose
id is 3, not a flag of the caller; `SetRematchPreference(1, true)` after it
returns `bothAccepted = true`, though player 3 has made no call. -/
theorem setRematchPreference_sets_flag_of_other_player :
    ReachableChecked overwrittenFinished ∧
      overwrittenFinished.playerToSession 2 = some 1 ∧
      overwrittenFinished.sessions 1 = some 1 ∧
      (overwrittenFinished.heap[1]?).map
          (fun s => (s.PlayerA.ID, s.PlayerB.ID, s.State, s.PlayerA.WantsRematch,
            s.PlayerB.WantsRematch))
        = some (1, 3, .StateFinished, false, false) ∧
      (overwrittenFinished.SetRematchPreference 2 true).value? = some (.ok (1, false)) ∧
      ((overwrittenFinished.SetRematchPreference 2 true).state.heap[1]?).map
          (fun s => (s.PlayerA.ID, s.PlayerA.WantsRematch, s.PlayerB.ID,
            s.PlayerB.WantsRematch))
        = some (1, false, 3, true) ∧
      ((overwrittenFinished.SetRematchPreference 2 true).state.SetRematchPreference 1
          true).value? = some (.ok (1, true)) :=
  ⟨overwrittenFinished_reachable, by decide, by decide, by decide, by decide, by decide,
    by decide⟩

end PrisonersDilemma
